import Mathlib

/-!
# BreathAIPay: order ledger, expiration sweeper and payment confirmation

A shallow embedding of `database/database.go` (order ledger, sweeper, customer
store), of the handlers `createPaymentIntent` and `successPageHandler` of `main.go`,
and of the balance update built by `AddBalance` in `openwebui/openwebui.go`.

* The `orders` table is a list of rows.  The SQL statements are modelled by their
  effect on that list; the `UNIQUE` constraint on `order_id` is enforced by the
  insert, as SQLite does.
* Timestamps are natural numbers (seconds).  The program stores and compares them
  as fixed-width `2006-01-02 15:04:05` strings, whose lexicographic order is the
  chronological one.
* Everything the program cannot control is an explicit input: the answers of the
  payment processor (`paymentintent.Get`, `paymentintent.Cancel`) and whether a
  statement sent to the database driver comes back with an error.
* Calls to the outside world (processor requests, `go finishPay(...)`) are returned
  as lists, in the order the program issues them.
* Go's `int` and `int64` are integers reduced to the 64-bit range after each
  arithmetic operation (`wrapInt64`); `float64` arithmetic is left out.
-/

namespace BreathAIPay

/-! ## The order ledger (`database.go`) -/

/-- One row of the `orders` table (`Order` in `main.go`, table created by `InitDB`). -/
structure Order where
  ID : Nat
  OrderID : String
  Status : String
  CreatedAt : Nat
  ExpiresAt : Nat
deriving DecidableEq, Repr

/-- The `orders` table. -/
abbrev Ledger := List Order

/-- Errors a ledger statement can come back with. -/
inductive DBError where
  /-- The insert hit `UNIQUE constraint failed: orders.order_id` -/
  | uniqueOrderID
  /-- Any other error reported by `db.Exec`, `db.Query` or `Scan` -/
  | driver
deriving DecidableEq, Repr

/-- Whether some row carries this `order_id`. -/
def hasOrder (l : Ledger) (orderID : String) : Bool :=
  l.any (fun o => decide (o.OrderID = orderID))

/-- Status of the (first) row carrying this `order_id`. -/
def statusOf : Ledger → String → Option String
  | [], _ => none
  | o :: t, orderID => if o.OrderID = orderID then some o.Status else statusOf t orderID

/-- Next value of the `AUTOINCREMENT` key: one more than the largest key in use. -/
def nextID (l : Ledger) : Nat :=
  (l.map Order.ID).foldl max 0 + 1

/-- The statement `UPDATE orders SET status = ? WHERE order_id = ?` applied to the
table. -/
def setStatus (l : Ledger) (orderID status : String) : Ledger :=
  l.map (fun o => if o.OrderID = orderID then { o with Status := status } else o)

/-- Go `UpdateOrderStatus(orderID, status, ignoreLock)`: runs the `UPDATE` and returns
the error of `db.Exec`.  The number of rows affected is discarded by the source, so
an `order_id` that matches no row is not an error.  `ignoreLock` only selects
whether the mutex is taken.  `fault` says whether the driver fails the statement. -/
def UpdateOrderStatus (fault : Bool) (l : Ledger) (orderID status : String)
    (_ignoreLock : Bool) : Ledger × Option DBError :=
  if fault then (l, some DBError.driver)
  else (setStatus l orderID status, none)

/-- Go `IsOrderProcessed(orderID)`:
`SELECT COUNT(*) FROM orders WHERE order_id = ? AND status = 'succeeded'`,
answer `count > 0`; on a query error `(false, err)`. -/
def IsOrderProcessed (fault : Bool) (l : Ledger) (orderID : String) :
    Bool × Option DBError :=
  if fault then (false, some DBError.driver)
  else
    let count :=
      (l.filter (fun o => decide (o.OrderID = orderID ∧ o.Status = "succeeded"))).length
    (decide (count > 0), none)

/-- Go `RecordOrder(orderID, status, expiresAt)`:
`INSERT INTO orders (order_id, status, expires_at) VALUES (?, ?, ?)`.
The insert is refused when the `UNIQUE` column `order_id` already holds the value;
`created_at` defaults to the current time `now`. -/
def RecordOrder (fault : Bool) (now : Nat) (l : Ledger) (orderID status : String)
    (expiresAt : Nat) : Ledger × Option DBError :=
  if fault then (l, some DBError.driver)
  else if hasOrder l orderID then (l, some DBError.uniqueOrderID)
  else
    (l ++ [{ ID := nextID l, OrderID := orderID, Status := status,
             CreatedAt := now, ExpiresAt := expiresAt }], none)

/-! ## The payment processor, as seen by the program -/

/-- The fields of `stripe.PaymentIntent` the program reads.  `Metadata` is a Go map
that may be `nil`. -/
structure PaymentIntent where
  ID : String
  Status : String
  Amount : Int
  Currency : String
  Metadata : Option (List (String × String))
deriving DecidableEq, Repr

/-- Requests sent to the processor. -/
inductive StripeCall where
  /-- Call `paymentintent.Get(id, nil)` -/
  | get (id : String)
  /-- Call `paymentintent.Cancel(id, params)` with `CancellationReason` -/
  | cancel (id : String) (reason : String)
deriving DecidableEq, Repr

/-- Indexing a Go `map[string]string`: the zero value `""` for a missing key. -/
def mapIndex (m : List (String × String)) (key : String) : String :=
  match m.find? (fun kv => decide (kv.1 = key)) with
  | some kv => kv.2
  | none => ""

/-! ## The expiration sweeper (`DeleteExpiredOrder`) -/

/-- What the outside world answers during one run of the sweeper. -/
structure SweepEnv where
  /-- Whether `db.Query` of the snapshot returns an error -/
  queryFault : Bool
  /-- Whether `rows.Scan` fails on the row of this order -/
  scanFault : String → Bool
  /-- Whether `rows.Err()` reports an error after the iteration -/
  rowsFault : Bool
  /-- Answer of `paymentintent.Get`; `none` is an error -/
  get : String → Option PaymentIntent
  /-- Whether `paymentintent.Cancel` returns an error -/
  cancelFails : String → Bool
  /-- Whether `db.Exec` inside `UpdateOrderStatus` fails for this order -/
  writeFault : String → Bool

/-- The snapshot query
`SELECT order_id FROM orders WHERE status = 'created' AND expires_at < ?`. -/
def listExpired (l : Ledger) (now : Nat) : List String :=
  (l.filter (fun o => decide (o.Status = "created" ∧ o.ExpiresAt < now))).map Order.OrderID

/-- The `switch pi.Status` that picks the value mirrored into the ledger. -/
def mirrorStatus (s : String) : String :=
  if s = "canceled" then "canceled"
  else if s = "succeeded" then "succeeded"
  else if s = "requires_capture" then "requires_capture"
  else ""

/-- The ledger status one loop iteration of the sweeper writes for an order, with
the processor requests it makes on the way. -/
def sweepDecision (env : SweepEnv) (orderID : String) : String × List StripeCall :=
  match env.get orderID with
  | none => ("error_retrieving", [StripeCall.get orderID])
  | some pi =>
    if pi.Status = "canceled" ∨ pi.Status = "succeeded" ∨ pi.Status = "requires_capture" then
      (mirrorStatus pi.Status, [StripeCall.get orderID])
    else if env.cancelFails orderID then
      ("canceled_due_to_error", [StripeCall.get orderID, StripeCall.cancel orderID "abandoned"])
    else
      ("canceled", [StripeCall.get orderID, StripeCall.cancel orderID "abandoned"])

/-- One iteration of the loop `for _, orderID := range expiredOrderIDs`: the
processor is asked, then `UpdateOrderStatus` is called; its error is only logged. -/
def sweepOrder (env : SweepEnv) (st : Ledger × List StripeCall) (orderID : String) :
    Ledger × List StripeCall :=
  let d := sweepDecision env orderID
  ((UpdateOrderStatus (env.writeFault orderID) st.1 orderID d.1 false).1, st.2 ++ d.2)

/-- Result of one run of the sweeper. -/
structure SweepResult where
  ledger : Ledger
  calls : List StripeCall
  err : Option DBError

/-- Go `DeleteExpiredOrder()`, run at time `now`: the snapshot under the mutex, then
the loop over its orders. -/
def DeleteExpiredOrder (env : SweepEnv) (now : Nat) (l : Ledger) : SweepResult :=
  if env.queryFault then { ledger := l, calls := [], err := some DBError.driver }
  else
    let expiredOrderIDs := (listExpired l now).filter (fun id => !env.scanFault id)
    if env.rowsFault then { ledger := l, calls := [], err := some DBError.driver }
    else
      let r := expiredOrderIDs.foldl (sweepOrder env) (l, [])
      { ledger := r.1, calls := r.2, err := none }

/-! ## `strconv.Atoi` (Go standard library) -/

/-- The two failures of `strconv`: a malformed numeral and a value out of range. -/
inductive NumError where
  | badNumeral
  | outOfRange
deriving DecidableEq, Repr

/-- Value of a decimal digit, `none` for any other character. -/
def digitVal (c : Char) : Option Nat :=
  if '0' ≤ c ∧ c ≤ '9' then some (c.toNat - '0'.toNat) else none

/-- The digit loop of `ParseUint(s, 10, 64)`: it stops at the first character that
is no digit, or as soon as the value leaves the range of `uint64`. -/
def parseUintLoop : List Char → Nat → Except NumError Nat
  | [], n => Except.ok n
  | c :: cs, n =>
    match digitVal c with
    | none => Except.error NumError.badNumeral
    | some d =>
      if n ≥ (2 ^ 64 - 1) / 10 + 1 then Except.error NumError.outOfRange
      else if n * 10 + d > 2 ^ 64 - 1 then Except.error NumError.outOfRange
      else parseUintLoop cs (n * 10 + d)

/-- Go `ParseInt(s, 10, 0)` after the sign has been split off, for a 64-bit `int`. -/
def parseIntBody (neg : Bool) (digits : List Char) : Int × Option NumError :=
  if digits = [] then (0, some NumError.badNumeral)
  else
    match parseUintLoop digits 0 with
    | Except.error NumError.badNumeral => (0, some NumError.badNumeral)
    | Except.error NumError.outOfRange =>
      if neg then (-(2 ^ 63 : Int), some NumError.outOfRange)
      else ((2 ^ 63 : Int) - 1, some NumError.outOfRange)
    | Except.ok un =>
      if !neg && decide (un ≥ 2 ^ 63) then ((2 ^ 63 : Int) - 1, some NumError.outOfRange)
      else if neg && decide (un > 2 ^ 63) then (-(2 ^ 63 : Int), some NumError.outOfRange)
      else (if neg then -(un : Int) else (un : Int), none)

/-- Go `strconv.Atoi(s)` with a 64-bit `int`: an optional sign, then decimal digits.
A malformed numeral yields `0`, a value out of range the nearest bound, both with an
error.  (The fast path of the library for short inputs computes the same value.) -/
def Atoi (s : String) : Int × Option NumError :=
  match s.toList with
  | [] => (0, some NumError.badNumeral)
  | c :: cs =>
    if c = '+' then parseIntBody false cs
    else if c = '-' then parseIntBody true cs
    else parseIntBody false (c :: cs)

/-! ## The confirmation handler (`successPageHandler` in `main.go`) -/

/-- One detached call `go finishPay(email, amount, sitetype)`. -/
structure Credit where
  email : String
  amount : Int
  sitetype : Int
deriving DecidableEq, Repr

/-- What the handler writes to the HTTP response. -/
inductive Response where
  /-- Body written by `c.JSON(code, ...)` -/
  | json (code : Nat)
  /-- Body written by `c.String(code, ...)` -/
  | text (code : Nat)
  /-- Page written by `c.HTML(code, "success.html", ...)` with its `email` and
  `sitetype` fields -/
  | html (code : Nat) (email sitetype : String)
deriving DecidableEq, Repr

/-- What the outside world answers during one run of the handler. -/
structure ConfirmEnv where
  /-- Answer of `paymentintent.Get`; `none` is an error -/
  get : String → Option PaymentIntent
  /-- Whether the query of `IsOrderProcessed` fails -/
  processedFault : Bool
  /-- Whether `db.Exec` inside `UpdateOrderStatus` fails -/
  updateFault : Bool

/-- Result of one run of the handler. -/
structure ConfirmResult where
  ledger : Ledger
  credits : List Credit
  responses : List Response
deriving DecidableEq, Repr

/-- The `switch siteType` that starts `finishPay`: realm 1 for `international`,
realm 2 for `domestic`, nothing for any other value. -/
def dispatchCredit (email siteType : String) (realAmount : Int) : List Credit :=
  if siteType = "international" then [{ email := email, amount := realAmount, sitetype := 1 }]
  else if siteType = "domestic" then [{ email := email, amount := realAmount, sitetype := 2 }]
  else []

/-- A field read inside `if pi.Metadata != nil`: the variable keeps its zero value
`""` when the map is `nil`. -/
def metaField (pi : PaymentIntent) (key : String) : String :=
  match pi.Metadata with
  | some m => mapIndex m key
  | none => ""

/-- The amount to credit, `realAmount, _ = strconv.Atoi(pi.Metadata["amount"])`: the error of
`Atoi` is dropped, and the variable keeps `0` when the map is `nil`. -/
def metaAmount (pi : PaymentIntent) : Int :=
  match pi.Metadata with
  | some m => (Atoi (mapIndex m "amount")).1
  | none => 0

/-- Go `successPageHandler`, for the query parameters `payment_intent` and
`redirect_status`.  A `redirect_status` other than `succeeded` writes a 400 JSON body
and, there being no `return`, the handler goes on. -/
def successPageHandler (env : ConfirmEnv) (l : Ledger)
    (paymentIntentID redirectStatus : String) : ConfirmResult :=
  let early : List Response :=
    if redirectStatus ≠ "succeeded" then [Response.json 400] else []
  if paymentIntentID = "" then
    { ledger := l, credits := [], responses := early ++ [Response.text 400] }
  else
    match env.get paymentIntentID with
    | none => { ledger := l, credits := [], responses := early ++ [Response.text 500] }
    | some pi =>
      if pi.Status = "succeeded" then
        let processed := IsOrderProcessed env.processedFault l paymentIntentID
        if processed.2 ≠ none then
          { ledger := l, credits := [], responses := early ++ [Response.text 500] }
        else if processed.1 = true then
          { ledger := l, credits := [], responses := early ++ [Response.html 200 "" ""] }
        else
          let email := metaField pi "email"
          let siteType := metaField pi "sitetype"
          let realAmount := metaAmount pi
          let upd := UpdateOrderStatus env.updateFault l paymentIntentID "succeeded" false
          if upd.2 ≠ none then
            { ledger := upd.1, credits := [], responses := early ++ [Response.text 500] }
          else
            { ledger := upd.1, credits := dispatchCredit email siteType realAmount,
              responses := early ++ [Response.html 200 email siteType] }
      else if pi.Status = "canceled" ∨ pi.Status = "requires_payment_method" then
        { ledger := l, credits := [], responses := early ++ [Response.text 400] }
      else
        { ledger := l, credits := [], responses := early ++ [Response.text 500] }

/-! ## Sequences of ledger operations -/

/-- The operations that touch the ledger, each with what the outside world answers
while it runs. -/
inductive Op where
  /-- A call of `RecordOrder` -/
  | record (fault : Bool) (now : Nat) (orderID status : String) (expiresAt : Nat)
  /-- One run of `successPageHandler` -/
  | confirm (env : ConfirmEnv) (paymentIntentID redirectStatus : String)
  /-- One run of `DeleteExpiredOrder` -/
  | sweep (env : SweepEnv) (now : Nat)

/-- The ledger after one operation. -/
def applyOp (l : Ledger) : Op → Ledger
  | Op.record fault now orderID status expiresAt =>
    (RecordOrder fault now l orderID status expiresAt).1
  | Op.confirm env paymentIntentID redirectStatus =>
    (successPageHandler env l paymentIntentID redirectStatus).ledger
  | Op.sweep env now => (DeleteExpiredOrder env now l).ledger

/-- The credits one operation dispatches for a given `order_id`: those of a
confirmation whose `payment_intent` is that `order_id`. -/
def creditsOf (orderID : String) (l : Ledger) : Op → List Credit
  | Op.confirm env paymentIntentID redirectStatus =>
    if paymentIntentID = orderID then
      (successPageHandler env l paymentIntentID redirectStatus).credits
    else []
  | _ => []

/-- The ledger after a sequence of operations. -/
def runOps (l : Ledger) (ops : List Op) : Ledger :=
  ops.foldl applyOp l

/-- All credits dispatched for a given `order_id` along a sequence of operations. -/
def creditsFor (orderID : String) : Ledger → List Op → List Credit
  | _, [] => []
  | l, op :: ops => creditsOf orderID l op ++ creditsFor orderID (applyOp l op) ops

/-! ## The sweeper interleaved with other operations

`DeleteExpiredOrder` releases the mutex after taking its snapshot and takes it again
only inside each `UpdateOrderStatus`, so other handlers can run between the snapshot
and the write of any order. -/

/-- The ledger together with the part of the snapshot the sweeper still has to
process. -/
structure SysState where
  ledger : Ledger
  pending : List String

/-- Steps of the interleaved system. -/
inductive Step where
  /-- The sweeper takes its snapshot (mutex held) -/
  | snapshot (env : SweepEnv) (now : Nat)
  /-- The sweeper runs one loop iteration on the next order of its snapshot -/
  | sweepNext (env : SweepEnv)
  /-- A request handler runs an operation -/
  | handler (op : Op)

/-- One step of the interleaved system. -/
def step (s : SysState) : Step → SysState
  | Step.snapshot env now =>
    if env.queryFault || env.rowsFault then { ledger := s.ledger, pending := [] }
    else
      { ledger := s.ledger,
        pending := (listExpired s.ledger now).filter (fun id => !env.scanFault id) }
  | Step.sweepNext env =>
    match s.pending with
    | [] => s
    | orderID :: rest =>
      { ledger := (sweepOrder env (s.ledger, []) orderID).1, pending := rest }
  | Step.handler op => { ledger := applyOp s.ledger op, pending := s.pending }

/-- The state after a sequence of steps. -/
def runSteps (s : SysState) (steps : List Step) : SysState :=
  steps.foldl step s

/-! ## The confirmation handler, action by action -/

/-- The actions of one run of `successPageHandler`, in the order the handler performs
them. -/
inductive Event where
  /-- A body or page is written to the response -/
  | respond (r : Response)
  /-- Call `paymentintent.Get(id, nil)` -/
  | processorGet (id : String)
  /-- Call `IsOrderProcessed(orderID)`, with the error it returned -/
  | ledgerRead (orderID : String) (err : Option DBError)
  /-- Call `UpdateOrderStatus(orderID, status, false)`, with the error it returned -/
  | ledgerWrite (orderID status : String) (err : Option DBError)
  /-- Statement `go finishPay(email, amount, sitetype)` -/
  | finishPay (c : Credit)
deriving DecidableEq, Repr

/-- The credit started by an action, if it is a `go finishPay`. -/
def Event.credit : Event → Option Credit
  | Event.finishPay c => some c
  | _ => none

/-- Go `successPageHandler` as the sequence of its actions: the same control flow as
`successPageHandler`, recording each call when it is made. -/
def successPageHandlerEvents (env : ConfirmEnv) (l : Ledger)
    (paymentIntentID redirectStatus : String) : List Event :=
  let early : List Event :=
    if redirectStatus ≠ "succeeded" then [Event.respond (Response.json 400)] else []
  if paymentIntentID = "" then early ++ [Event.respond (Response.text 400)]
  else
    match env.get paymentIntentID with
    | none =>
      early ++ [Event.processorGet paymentIntentID, Event.respond (Response.text 500)]
    | some pi =>
      if pi.Status = "succeeded" then
        let processed := IsOrderProcessed env.processedFault l paymentIntentID
        if processed.2 ≠ none then
          early ++ [Event.processorGet paymentIntentID,
            Event.ledgerRead paymentIntentID processed.2,
            Event.respond (Response.text 500)]
        else if processed.1 = true then
          early ++ [Event.processorGet paymentIntentID,
            Event.ledgerRead paymentIntentID processed.2,
            Event.respond (Response.html 200 "" "")]
        else
          let email := metaField pi "email"
          let siteType := metaField pi "sitetype"
          let realAmount := metaAmount pi
          let upd := UpdateOrderStatus env.updateFault l paymentIntentID "succeeded" false
          if upd.2 ≠ none then
            early ++ [Event.processorGet paymentIntentID,
              Event.ledgerRead paymentIntentID processed.2,
              Event.ledgerWrite paymentIntentID "succeeded" upd.2,
              Event.respond (Response.text 500)]
          else
            early ++ [Event.processorGet paymentIntentID,
              Event.ledgerRead paymentIntentID processed.2,
              Event.ledgerWrite paymentIntentID "succeeded" upd.2] ++
              (dispatchCredit email siteType realAmount).map Event.finishPay ++
              [Event.respond (Response.html 200 email siteType)]
      else if pi.Status = "canceled" ∨ pi.Status = "requires_payment_method" then
        early ++ [Event.processorGet paymentIntentID, Event.respond (Response.text 400)]
      else
        early ++ [Event.processorGet paymentIntentID, Event.respond (Response.text 500)]

/-! ## The customer store (`GetCustomerId` in `database.go`) -/

/-- One row of the `customers` table: `id` is the primary key, `mail` is `UNIQUE`. -/
structure Customer where
  id : String
  mail : String
deriving DecidableEq, Repr

/-- The `customers` table. -/
abbrev Customers := List Customer

/-- The errors `GetCustomerId` can return. -/
inductive CustomerError where
  /-- The `SELECT` failed with an error other than `sql.ErrNoRows` -/
  | queryFailed
  /-- The call `customer.New` failed -/
  | createFailed
  /-- The `INSERT` violated the primary key or the `UNIQUE` constraint -/
  | insertRefused
  /-- The `INSERT` failed in the driver -/
  | insertFailed
deriving DecidableEq, Repr

/-- The calls `GetCustomerId` makes besides the look-up. -/
inductive CustomerCall where
  /-- Call `customer.New(params)` with this `Email` -/
  | create (email : String)
  /-- Statement `INSERT INTO customers (id, mail) VALUES (?, ?)` -/
  | insert (id email : String)
deriving DecidableEq, Repr

/-- What the outside world answers during one run of `GetCustomerId`. -/
structure CustomerEnv where
  /-- Whether the `SELECT` fails with an error other than `sql.ErrNoRows` -/
  queryFault : Bool
  /-- Answer of `customer.New` for an email: the new customer ID, `none` for an error -/
  create : String → Option String
  /-- Whether the driver fails the `INSERT` -/
  insertFault : Bool

/-- Result of one run of `GetCustomerId`: the returned pair, the table afterwards and
the calls made. -/
structure CustomerResult where
  store : Customers
  id : String
  err : Option CustomerError
  calls : List CustomerCall
deriving DecidableEq, Repr

/-- The look-up `SELECT id FROM customers WHERE mail = ?` read with `QueryRow`: the
first matching row, `none` standing for `sql.ErrNoRows`. -/
def findCustomer : Customers → String → Option String
  | [], _ => none
  | c :: t, email => if c.mail = email then some c.id else findCustomer t email

/-- The statement `INSERT INTO customers (id, mail) VALUES (?, ?)`: refused when the
`id` or the `mail` is already in the table. -/
def insertCustomer (fault : Bool) (store : Customers) (id email : String) :
    Customers × Option CustomerError :=
  if fault then (store, some CustomerError.insertFailed)
  else if store.any (fun c => decide (c.id = id)) || store.any (fun c => decide (c.mail = email))
  then (store, some CustomerError.insertRefused)
  else (store ++ [{ id := id, mail := email }], none)

/-- Go `GetCustomerId(email)`: look the email up; when there is no row, create the
customer at the processor and store the mapping.  An error of the `INSERT` is returned
together with the new ID. -/
def GetCustomerId (env : CustomerEnv) (store : Customers) (email : String) :
    CustomerResult :=
  if env.queryFault then
    { store := store, id := "", err := some CustomerError.queryFailed, calls := [] }
  else
    match findCustomer store email with
    | some id => { store := store, id := id, err := none, calls := [] }
    | none =>
      match env.create email with
      | none =>
        { store := store, id := "", err := some CustomerError.createFailed,
          calls := [CustomerCall.create email] }
      | some newID =>
        let ins := insertCustomer env.insertFault store newID email
        { store := ins.1, id := newID, err := ins.2,
          calls := [CustomerCall.create email, CustomerCall.insert newID email] }

/-- Whether a call is a remote customer creation. -/
def CustomerCall.isCreate : CustomerCall → Bool
  | CustomerCall.create _ => true
  | _ => false

/-- Whether a call is an insert into the `customers` table. -/
def CustomerCall.isInsert : CustomerCall → Bool
  | CustomerCall.insert _ _ => true
  | _ => false

/-! ## The `UNIQUE` constraint of the ledger -/

/-- The constraint `order_id TEXT NOT NULL UNIQUE` of the `orders` table: no two rows
carry the same `order_id`. -/
abbrev uniqueOrderIDs (l : Ledger) : Prop :=
  (l.map Order.OrderID).Nodup

/-! ## The balance update (`AddBalance` in `openwebui.go`) -/

/-- Two's-complement reduction of an integer to the range of `int64`, the result of
Go's `int64` (and 64-bit `int`) arithmetic. -/
def wrapInt64 (x : Int) : Int :=
  (x + 2 ^ 63) % 2 ^ 64 - 2 ^ 63

/-- Go `UserInfo`; `Credit` is an `int64`. -/
structure UserInfo where
  ID : String
  Credit : Int
  Email : String
  Name : String
  ProfileImageURL : String
  Role : String
deriving DecidableEq, Repr

/-- The map `updateData` that `AddBalance` serialises as the request body. -/
structure UpdateData where
  credit : Int
  name : String
  email : String
  profile_image_url : String
  role : String
deriving DecidableEq, Repr

/-- The POST request `AddBalance` builds: its URL, the environment variable holding
the bearer token, and the body. -/
structure BalanceRequest where
  url : String
  tokenVar : String
  updateData : UpdateData
deriving DecidableEq, Repr

/-- Go `AddBalance(userInfo, amount, sitetype)`, up to sending the request:
`newCredit := userInfo.Credit + amount` in `int64`, the other fields are copied, and
`sitetype == 1` selects the international site, any other value the Chinese one. -/
def AddBalance (userInfo : UserInfo) (amount : Int) (sitetype : Int) : BalanceRequest :=
  let newCredit := wrapInt64 (userInfo.Credit + amount)
  { url :=
      if sitetype = 1 then "https://chat.breathai.top/api/v1/users/" ++ userInfo.ID ++ "/update"
      else "https://breath.yearnstudio.cn/api/v1/users/" ++ userInfo.ID ++ "/update",
    tokenVar :=
      if sitetype = 1 then "OPENWEBUI_INTERNATIONAL_TOKEN" else "OPENWEBUI_CHINESE_TOKEN",
    updateData :=
      { credit := newCredit, name := userInfo.Name, email := userInfo.Email,
        profile_image_url := userInfo.ProfileImageURL, role := userInfo.Role } }

/-! ## Creating a payment (`createPaymentIntent` in `main.go`) -/

/-- Go `Product`.  `Price` is a `float64` in the source; the catalog only holds whole
numbers and the handlers use `int(selectedProduct.Price)`, so it is kept as an
integer here. -/
structure Product where
  ID : Int
  Name : String
  Price : Int
  Points : Int
deriving DecidableEq, Repr

/-- Go `GetProducts()`: the server-side catalog. -/
def GetProducts : List Product :=
  [{ ID := 1, Name := "100,000 积分", Price := 20, Points := 100000 },
   { ID := 2, Name := "500,000 积分", Price := 50, Points := 500000 },
   { ID := 3, Name := "1,000,000 积分", Price := 100, Points := 1000000 }]

/-- The loop that selects the product with a given ID, first match. -/
def findProduct (productID : Int) : Option Product :=
  GetProducts.find? (fun p => decide (p.ID = productID))

/-- The character of a decimal digit. -/
def digitChar (d : Nat) : Char :=
  Char.ofNat ('0'.toNat + d)

/-- The digit loop of `strconv.FormatInt` in base 10: the last digit is split off
while the value is at least 10.  The first argument bounds the number of digits. -/
def decimalDigits : Nat → Nat → List Char → List Char
  | 0, _, acc => acc
  | fuel + 1, u, acc =>
    if u < 10 then digitChar u :: acc
    else decimalDigits fuel (u / 10) (digitChar (u % 10) :: acc)

/-- Go `strconv.Itoa(i)` for a 64-bit `int`: a minus sign for a negative value, then the
decimal digits of the magnitude (at most 19 of them, 20 are allowed for). -/
def Itoa (i : Int) : String :=
  if i < 0 then String.mk ('-' :: decimalDigits 20 i.natAbs [])
  else String.mk (decimalDigits 20 i.toNat [])

/-- The fields of `stripe.PaymentIntentParams` that `createPaymentIntent` derives from
the request.  `baseAmount` is the integer `priceVal*quantityVal`; the charged `Amount`
is computed from it in `float64` arithmetic, `int64(((base + 1.9) / 0.971) * 100)`,
which is left out. -/
structure IntentParams where
  baseAmount : Int
  Currency : String
  ReceiptEmail : String
  Metadata : List (String × String)
  Customer : String
deriving DecidableEq, Repr

/-- What the outside world answers during one run of `createPaymentIntent`. -/
structure CreateEnv where
  /-- The answers to `GetCustomerId` -/
  customer : CustomerEnv
  /-- Answer of `paymentintent.New`: the ID of the new intent, `none` for an error -/
  newIntent : IntentParams → Option String
  /-- Whether the driver fails the `INSERT` of `RecordOrder` -/
  recordFault : Bool

/-- Result of one run of `createPaymentIntent`: both tables afterwards, the parameters
sent to the processor if the run got that far, and the HTTP status of the answer. -/
structure CreateResult where
  ledger : Ledger
  customers : Customers
  params : Option IntentParams
  code : Nat
deriving DecidableEq, Repr

/-- Go `createPaymentIntent`, with the posted form as a function from field names to
values (`c.PostForm`).  The product is looked up in the catalog by the posted
`productID`; the quantity must parse and be at least 1; the points written to the
metadata are `selectedProduct.Points * quantityVal` in `int` arithmetic. -/
def createPaymentIntent (env : CreateEnv) (now : Nat) (l : Ledger) (customers : Customers)
    (form : String → String) : CreateResult :=
  let expiresAt := now + 30 * 60
  let productID := Atoi (form "productID")
  if productID.2 ≠ none then
    { ledger := l, customers := customers, params := none, code := 400 }
  else
    match findProduct productID.1 with
    | none => { ledger := l, customers := customers, params := none, code := 400 }
    | some selectedProduct =>
      let quantityVal := Atoi (form "quantity")
      if quantityVal.2 ≠ none ∨ quantityVal.1 < 1 then
        { ledger := l, customers := customers, params := none, code := 400 }
      else
        let customer := GetCustomerId env.customer customers (form "email")
        if customer.err ≠ none then
          { ledger := l, customers := customer.store, params := none, code := 400 }
        else
          let params : IntentParams :=
            { baseAmount := wrapInt64 (selectedProduct.Price * quantityVal.1),
              Currency := "cny",
              ReceiptEmail := form "email",
              Metadata :=
                [("email", form "email"), ("sitetype", form "siteType"),
                 ("amount", Itoa (wrapInt64 (selectedProduct.Points * quantityVal.1))),
                 ("productID", Itoa productID.1)],
              Customer := customer.id }
          match env.newIntent params with
          | none =>
            { ledger := l, customers := customer.store, params := some params, code := 400 }
          | some id =>
            let recorded := RecordOrder env.recordFault now l id "created" expiresAt
            if recorded.2 ≠ none then
              { ledger := recorded.1, customers := customer.store, params := some params,
                code := 500 }
            else
              { ledger := recorded.1, customers := customer.store, params := some params,
                code := 200 }

/-! ## Sample data for the concrete instances -/

/-- An order still waiting for payment, expiring at time 1805. -/
def orderCreated : Order :=
  { ID := 1, OrderID := "pi_1", Status := "created", CreatedAt := 5, ExpiresAt := 1805 }

/-- The same order once confirmed. -/
def orderSucceeded : Order :=
  { ID := 1, OrderID := "pi_1", Status := "succeeded", CreatedAt := 5, ExpiresAt := 1805 }

/-- A payment intent `pi_1` as the processor reports it, for a given status and
`sitetype` metadata. -/
def intent (status siteType : String) : PaymentIntent :=
  { ID := "pi_1", Status := status, Amount := 2256, Currency := "cny",
    Metadata := some [("email", "a@b.com"), ("sitetype", siteType), ("amount", "100000")] }

/-- The processor answers with the given intent and the database works. -/
def answering (pi : PaymentIntent) : ConfirmEnv :=
  { get := fun _ => some pi, processedFault := false, updateFault := false }

/-- A run of the sweeper in which the snapshot is read without error, the processor
gives the same answer for every order, and every status write fails or not as
`writeFault` says. -/
def sweeping (get : Option PaymentIntent) (cancelFails writeFault : Bool) : SweepEnv :=
  { queryFault := false, scanFault := fun _ => false, rowsFault := false,
    get := fun _ => get, cancelFails := fun _ => cancelFails,
    writeFault := fun _ => writeFault }

/-- The processor creates customer `cus_1` for any email and the customer store
works. -/
def creating : CustomerEnv :=
  { queryFault := false, create := fun _ => some "cus_1", insertFault := false }

/-- A second order waiting for payment, expiring at time 1700. -/
def orderSecond : Order :=
  { ID := 2, OrderID := "pi_2", Status := "created", CreatedAt := 9, ExpiresAt := 1700 }

/-- A run of the sweeper in which everything fails for `pi_1` (the query of its remote
state and its status write) while the processor reports `requires_payment_method` for
every other order and cancels it. -/
def failingFirst : SweepEnv :=
  { queryFault := false, scanFault := fun _ => false, rowsFault := false,
    get := fun id => if id = "pi_1" then none
      else some (intent "requires_payment_method" "domestic"),
    cancelFails := fun _ => false,
    writeFault := fun id => decide (id = "pi_1") }

/-- A user whose balance is `2^63 - 1024`, a value an `int64` (and a `float64`) holds. -/
def userNearMax : UserInfo :=
  { ID := "u1", Credit := 9223372036854774784, Email := "a@b.com", Name := "Ann",
    ProfileImageURL := "/user.png", Role := "user" }

/-- A user with a balance of 500. -/
def userAnn : UserInfo :=
  { ID := "u1", Credit := 500, Email := "a@b.com", Name := "Ann",
    ProfileImageURL := "/user.png", Role := "user" }

/-- The form posted to `/api/payment` for product 1 with a given quantity; it also
carries a `price` field, which the handler does not read. -/
def orderForm (quantity price : String) : String → String :=
  fun field =>
    if field = "productID" then "1"
    else if field = "quantity" then quantity
    else if field = "email" then "a@b.com"
    else if field = "siteType" then "domestic"
    else if field = "price" then price
    else ""

/-- The customer is created, the processor creates intent `pi_9`, the ledger works. -/
def shop : CreateEnv :=
  { customer := creating, newIntent := fun _ => some "pi_9", recordFault := false }

/-- The intent `pi_9` as the processor reports it once paid, with the metadata it was
created with. -/
def paidIntent (metadata : List (String × String)) : PaymentIntent :=
  { ID := "pi_9", Status := "succeeded", Amount := 2255, Currency := "cny",
    Metadata := some metadata }

/-! ## Basic facts about the ledger statements -/

theorem setStatus_orderID (l : Ledger) (orderID status : String) :
    (setStatus l orderID status).map Order.OrderID = l.map Order.OrderID := by
  induction l with
  | nil => rfl
  | cons o t ih =>
    simp only [setStatus, List.map_cons] at ih ⊢
    rw [ih]
    by_cases h : o.OrderID = orderID <;> simp [h]

theorem hasOrder_iff (l : Ledger) (orderID : String) :
    hasOrder l orderID = true ↔ ∃ o ∈ l, o.OrderID = orderID := by
  simp [hasOrder]

theorem hasOrder_setStatus (l : Ledger) (orderID status other : String) :
    hasOrder (setStatus l orderID status) other = hasOrder l other := by
  induction l with
  | nil => rfl
  | cons o t ih =>
    simp only [hasOrder, setStatus, List.map_cons, List.any_cons] at ih ⊢
    rw [ih]
    by_cases h : o.OrderID = orderID <;> simp [h]

theorem mem_setStatus (l : Ledger) (orderID status : String) (o : Order) :
    o ∈ setStatus l orderID status ↔
      ∃ p ∈ l, o = (if p.OrderID = orderID then { p with Status := status } else p) := by
  simp only [setStatus, List.mem_map]
  constructor
  · rintro ⟨p, hp, rfl⟩
    exact ⟨p, hp, rfl⟩
  · rintro ⟨p, hp, rfl⟩
    exact ⟨p, hp, rfl⟩

theorem statusOf_setStatus_self (l : Ledger) (orderID status : String)
    (h : hasOrder l orderID = true) :
    statusOf (setStatus l orderID status) orderID = some status := by
  induction l with
  | nil => simp [hasOrder] at h
  | cons o t ih =>
    by_cases ho : o.OrderID = orderID
    · simp [statusOf, setStatus, ho]
    · have ht : hasOrder t orderID = true := by
        simpa [hasOrder, ho] using h
      have := ih ht
      simpa [statusOf, setStatus, ho] using this

theorem statusOf_setStatus_other (l : Ledger) (orderID status other : String)
    (h : other ≠ orderID) :
    statusOf (setStatus l orderID status) other = statusOf l other := by
  induction l with
  | nil => rfl
  | cons o t ih =>
    have hc : setStatus (o :: t) orderID status =
        (if o.OrderID = orderID then { o with Status := status } else o) ::
          setStatus t orderID status := rfl
    rw [hc]
    by_cases ho : o.OrderID = orderID
    · have hne : ¬ o.OrderID = other := fun e => h (e.symm.trans ho)
      rw [if_pos ho]
      simp only [statusOf, if_neg hne, ih]
    · rw [if_neg ho]
      simp only [statusOf, ih]

theorem setStatus_absent (l : Ledger) (orderID status : String)
    (h : hasOrder l orderID = false) : setStatus l orderID status = l := by
  induction l with
  | nil => rfl
  | cons o t ih =>
    simp only [hasOrder, List.any_cons, Bool.or_eq_false_iff, decide_eq_false_iff_not] at h
    have ht : hasOrder t orderID = false := h.2
    have := ih ht
    simp only [setStatus, List.map_cons] at this ⊢
    rw [this]
    simp [h.1]

theorem setStatus_idem (l : Ledger) (orderID status : String) :
    setStatus (setStatus l orderID status) orderID status = setStatus l orderID status := by
  induction l with
  | nil => rfl
  | cons o t ih =>
    simp only [setStatus, List.map_cons] at ih ⊢
    rw [ih]
    by_cases ho : o.OrderID = orderID <;> simp [ho]

/-! ## C3: a duplicate insert is refused -/

/-- C3. `RecordOrder` with an `order_id` that is already in the ledger returns an
error (the `UNIQUE` violation when the driver itself does not fail) and leaves the
ledger, hence the status of the existing record, unchanged; whatever status and
expiry are passed. -/
theorem RecordOrder_duplicate_rejected (fault : Bool) (now : Nat) (l : Ledger)
    (orderID status : String) (expiresAt : Nat) (h : hasOrder l orderID = true) :
    (RecordOrder fault now l orderID status expiresAt).2 ≠ none ∧
    (fault = false →
      (RecordOrder fault now l orderID status expiresAt).2 = some DBError.uniqueOrderID) ∧
    (RecordOrder fault now l orderID status expiresAt).1 = l ∧
    statusOf (RecordOrder fault now l orderID status expiresAt).1 orderID =
      statusOf l orderID := by
  cases fault <;> simp [RecordOrder, h]

/-- C3, instance. A second insert of `pi_1` is refused and the recorded status
`succeeded` stays. -/
theorem RecordOrder_duplicate_rejected_witness :
    hasOrder [orderSucceeded] "pi_1" = true ∧
    (RecordOrder false 9 [orderSucceeded] "pi_1" "created" 1809).2 ≠ none ∧
    statusOf (RecordOrder false 9 [orderSucceeded] "pi_1" "created" 1809).1 "pi_1" =
      some "succeeded" := by
  have h := RecordOrder_duplicate_rejected false 9 [orderSucceeded] "pi_1" "created" 1809
    (by decide)
  refine ⟨by decide, h.1, ?_⟩
  rw [h.2.2.2]
  decide

/-! ## C4: `UpdateOrderStatus` and absent orders -/

/-- C4, counterexample. On a ledger that does not hold `pi_404`,
`UpdateOrderStatus("pi_404", "succeeded")` returns no error, so "fails if and only if
the order is absent" does not hold. -/
theorem UpdateOrderStatus_absent_no_error :
    hasOrder [] "pi_404" = false ∧
    ¬ ((UpdateOrderStatus false [] "pi_404" "succeeded" false).2 ≠ none ↔
        hasOrder [] "pi_404" = false) := by
  decide

/-- C4, amended. `UpdateOrderStatus` returns an error exactly when the database driver
fails the statement, never because the order is absent; a failed statement leaves the
ledger unchanged.  Otherwise: for an absent `order_id` the ledger is unchanged; for a
present one the order's status becomes `newStatus`, the other orders keep theirs, and
repeating the same update changes nothing further. -/
theorem UpdateOrderStatus_overwrites (fault : Bool) (l : Ledger)
    (orderID newStatus : String) (ignoreLock : Bool) :
    ((UpdateOrderStatus fault l orderID newStatus ignoreLock).2 ≠ none ↔ fault = true) ∧
    (fault = true → (UpdateOrderStatus fault l orderID newStatus ignoreLock).1 = l) ∧
    (fault = false → hasOrder l orderID = false →
      (UpdateOrderStatus fault l orderID newStatus ignoreLock).1 = l) ∧
    (fault = false → hasOrder l orderID = true →
      statusOf (UpdateOrderStatus fault l orderID newStatus ignoreLock).1 orderID =
        some newStatus) ∧
    (∀ other, other ≠ orderID →
      statusOf (UpdateOrderStatus fault l orderID newStatus ignoreLock).1 other =
        statusOf l other) ∧
    (UpdateOrderStatus false (UpdateOrderStatus false l orderID newStatus ignoreLock).1
        orderID newStatus ignoreLock).1 =
      (UpdateOrderStatus false l orderID newStatus ignoreLock).1 := by
  cases fault
  · refine ⟨by simp [UpdateOrderStatus], by simp, ?_, ?_, ?_, ?_⟩
    · intro _ h
      simpa [UpdateOrderStatus] using setStatus_absent l orderID newStatus h
    · intro _ h
      simpa [UpdateOrderStatus] using statusOf_setStatus_self l orderID newStatus h
    · intro other h
      simpa [UpdateOrderStatus] using statusOf_setStatus_other l orderID newStatus other h
    · simpa [UpdateOrderStatus] using setStatus_idem l orderID newStatus
  · refine ⟨by simp [UpdateOrderStatus], by simp [UpdateOrderStatus], by simp, by simp, ?_, ?_⟩
    · intro other _
      simp [UpdateOrderStatus]
    · simpa [UpdateOrderStatus] using setStatus_idem l orderID newStatus

/-- C4, instance. Updating the recorded order `pi_1` to `succeeded`. -/
theorem UpdateOrderStatus_overwrites_witness :
    hasOrder [orderCreated] "pi_1" = true ∧
    statusOf (UpdateOrderStatus false [orderCreated] "pi_1" "succeeded" false).1 "pi_1" =
      some "succeeded" :=
  ⟨by decide,
    (UpdateOrderStatus_overwrites false [orderCreated] "pi_1" "succeeded" false).2.2.2.1
      rfl (by decide)⟩

/-! ## Basic facts about the confirmation handler -/

theorem dispatchCredit_length (email siteType : String) (realAmount : Int) :
    (dispatchCredit email siteType realAmount).length ≤ 1 := by
  unfold dispatchCredit
  split_ifs <;> simp

theorem isProcessed_iff (l : Ledger) (orderID : String) :
    (IsOrderProcessed false l orderID).1 = true ↔
      ∃ o ∈ l, o.OrderID = orderID ∧ o.Status = "succeeded" := by
  simp [IsOrderProcessed, List.length_pos_iff_exists_mem]

theorem isProcessed_err (fault : Bool) (l : Ledger) (orderID : String) :
    (IsOrderProcessed fault l orderID).2 ≠ none ↔ fault = true := by
  cases fault <;> simp [IsOrderProcessed]

/-- The run of the handler that credits: a non-empty `payment_intent`, the processor
reports `succeeded`, both ledger statements work and no row of the order is
`succeeded` yet.  The order is marked `succeeded` and `finishPay` is started
according to the `sitetype` metadata. -/
theorem confirm_crediting_run (env : ConfirmEnv) (l : Ledger) (orderID rs : String)
    (pi : PaymentIntent) (hid : orderID ≠ "") (hget : env.get orderID = some pi)
    (hst : pi.Status = "succeeded") (hpf : env.processedFault = false)
    (huf : env.updateFault = false)
    (hnew : ¬ ∃ o ∈ l, o.OrderID = orderID ∧ o.Status = "succeeded") :
    (successPageHandler env l orderID rs).ledger = setStatus l orderID "succeeded" ∧
    (successPageHandler env l orderID rs).credits =
      dispatchCredit (metaField pi "email") (metaField pi "sitetype") (metaAmount pi) := by
  have hp : ¬ (IsOrderProcessed false l orderID).1 = true :=
    fun h => hnew ((isProcessed_iff l orderID).1 h)
  have hp2 : (IsOrderProcessed false l orderID).2 = none := by simp [IsOrderProcessed]
  simp [successPageHandler, hid, hget, hst, hpf, huf, hp, hp2, UpdateOrderStatus]

/-- Every other run of the handler leaves the ledger as it is and dispatches
nothing. -/
theorem confirm_cases (env : ConfirmEnv) (l : Ledger) (orderID rs : String) :
    ((successPageHandler env l orderID rs).ledger = l ∧
      (successPageHandler env l orderID rs).credits = []) ∨
    (∃ pi, orderID ≠ "" ∧ env.get orderID = some pi ∧ pi.Status = "succeeded" ∧
      env.processedFault = false ∧ env.updateFault = false ∧
      ¬ ∃ o ∈ l, o.OrderID = orderID ∧ o.Status = "succeeded") := by
  by_cases hid : orderID = ""
  · left
    simp [successPageHandler, hid]
  cases hget : env.get orderID with
  | none =>
    left
    simp [successPageHandler, hid, hget]
  | some pi =>
    by_cases hst : pi.Status = "succeeded"
    · cases hpf : env.processedFault with
      | true =>
        left
        simp [successPageHandler, hid, hget, hst, hpf, IsOrderProcessed]
      | false =>
        by_cases hp : (IsOrderProcessed false l orderID).1 = true
        · left
          have hp2 : (IsOrderProcessed false l orderID).2 = none := by
            simp [IsOrderProcessed]
          simp [successPageHandler, hid, hget, hst, hpf, hp, hp2]
        · cases huf : env.updateFault with
          | true =>
            left
            have hp2 : (IsOrderProcessed false l orderID).2 = none := by
              simp [IsOrderProcessed]
            simp [successPageHandler, hid, hget, hst, hpf, hp, hp2, huf, UpdateOrderStatus]
          | false =>
            right
            exact ⟨pi, hid, rfl, hst, rfl, rfl,
              fun h => hp ((isProcessed_iff l orderID).2 h)⟩
    · left
      by_cases hc : pi.Status = "canceled" ∨ pi.Status = "requires_payment_method"
      · simp [successPageHandler, hid, hget, hst, hc]
      · simp [successPageHandler, hid, hget, hst, hc]

/-- The handler dispatches at most one credit. -/
theorem confirm_credits_length (env : ConfirmEnv) (l : Ledger) (orderID rs : String) :
    (successPageHandler env l orderID rs).credits.length ≤ 1 := by
  rcases confirm_cases env l orderID rs with h | ⟨pi, hid, hget, hst, hpf, huf, hnew⟩
  · simp [h.2]
  · rw [(confirm_crediting_run env l orderID rs pi hid hget hst hpf huf hnew).2]
    exact dispatchCredit_length _ _ _

/-- The handler changes the ledger at most by marking its order `succeeded`. -/
theorem confirm_ledger (env : ConfirmEnv) (l : Ledger) (orderID rs : String) :
    (successPageHandler env l orderID rs).ledger = l ∨
    (successPageHandler env l orderID rs).ledger = setStatus l orderID "succeeded" := by
  rcases confirm_cases env l orderID rs with h | ⟨pi, hid, hget, hst, hpf, huf, hnew⟩
  · exact Or.inl h.1
  · exact Or.inr (confirm_crediting_run env l orderID rs pi hid hget hst hpf huf hnew).1

/-- A credit is dispatched only together with marking the order `succeeded`, and only
when no row of it was `succeeded` before. -/
theorem confirm_credits_ne_nil (env : ConfirmEnv) (l : Ledger) (orderID rs : String)
    (h : (successPageHandler env l orderID rs).credits ≠ []) :
    (successPageHandler env l orderID rs).ledger = setStatus l orderID "succeeded" ∧
    ¬ ∃ o ∈ l, o.OrderID = orderID ∧ o.Status = "succeeded" := by
  rcases confirm_cases env l orderID rs with h2 | ⟨pi, hid, hget, hst, hpf, huf, hnew⟩
  · exact absurd h2.2 h
  · exact ⟨(confirm_crediting_run env l orderID rs pi hid hget hst hpf huf hnew).1, hnew⟩

/-- Once a row of the order is `succeeded`, the handler dispatches nothing. -/
theorem confirm_processed_no_credit (env : ConfirmEnv) (l : Ledger) (orderID rs : String)
    (h : ∃ o ∈ l, o.OrderID = orderID ∧ o.Status = "succeeded") :
    (successPageHandler env l orderID rs).credits = [] := by
  by_contra hne
  exact (confirm_credits_ne_nil env l orderID rs hne).2 h

theorem setStatus_processed (l : Ledger) (orderID : String)
    (h : hasOrder l orderID = true) :
    ∃ o ∈ setStatus l orderID "succeeded", o.OrderID = orderID ∧ o.Status = "succeeded" := by
  obtain ⟨p, hp, hpid⟩ := (hasOrder_iff l orderID).1 h
  refine ⟨{ p with Status := "succeeded" }, ?_, hpid, rfl⟩
  rw [mem_setStatus]
  exact ⟨p, hp, by simp [hpid]⟩

/-! ## Basic facts about the sweeper -/

/-- The ledger after the loop of the sweeper, in closed form: a row is rewritten
exactly when its `order_id` is in the snapshot and its status write did not fail, and
it then carries the status decided from the processor's answers for that order. -/
theorem foldl_sweepOrder_ledger (env : SweepEnv) (ids : List String) (l : Ledger)
    (c : List StripeCall) :
    (ids.foldl (sweepOrder env) (l, c)).1 =
      l.map (fun o =>
        if o.OrderID ∈ ids ∧ env.writeFault o.OrderID = false then
          { o with Status := (sweepDecision env o.OrderID).1 }
        else o) := by
  induction ids generalizing l c with
  | nil => simp
  | cons id ids ih =>
    rw [List.foldl_cons, sweepOrder, ih]
    cases hw : env.writeFault id with
    | true =>
      simp only [UpdateOrderStatus, if_true]
      apply List.map_congr_left
      intro o _
      by_cases ho : o.OrderID = id
      · simp [ho, hw]
      · simp [ho]
    | false =>
      simp only [UpdateOrderStatus, Bool.false_eq_true, if_false, setStatus, List.map_map]
      apply List.map_congr_left
      intro o _
      by_cases ho : o.OrderID = id
      · subst ho
        simp [hw]
      · simp [ho]

/-- The processor requests of the loop of the sweeper, in closed form: those of each
order of the snapshot, in turn. -/
theorem foldl_sweepOrder_calls (env : SweepEnv) (ids : List String) (l : Ledger)
    (c : List StripeCall) :
    (ids.foldl (sweepOrder env) (l, c)).2 =
      c ++ ids.flatMap (fun id => (sweepDecision env id).2) := by
  induction ids generalizing l c with
  | nil => simp
  | cons id ids ih =>
    rw [List.foldl_cons, sweepOrder, ih]
    simp [List.flatMap_cons]

/-- The snapshot holds exactly the `order_id`s of rows that are `created` and
expired. -/
theorem mem_listExpired (l : Ledger) (now : Nat) (orderID : String) :
    orderID ∈ listExpired l now ↔
      ∃ o ∈ l, o.OrderID = orderID ∧ o.Status = "created" ∧ o.ExpiresAt < now := by
  simp only [listExpired, List.mem_map, List.mem_filter, decide_eq_true_eq]
  constructor
  · rintro ⟨o, ⟨ho, hc, he⟩, rfl⟩
    exact ⟨o, ho, rfl, hc, he⟩
  · rintro ⟨o, ho, rfl, hc, he⟩
    exact ⟨o, ⟨ho, hc, he⟩, rfl⟩

/-- The status the sweeper decides on is one of the five outcomes. -/
theorem sweepDecision_status (env : SweepEnv) (orderID : String) :
    (sweepDecision env orderID).1 ∈
      ["succeeded", "canceled", "requires_capture", "canceled_due_to_error",
        "error_retrieving"] := by
  unfold sweepDecision
  cases env.get orderID with
  | none => simp
  | some pi =>
    simp only []
    by_cases h1 : pi.Status = "canceled"
    · simp [h1, mirrorStatus]
    · by_cases h2 : pi.Status = "succeeded"
      · simp [h2, mirrorStatus]
      · by_cases h3 : pi.Status = "requires_capture"
        · simp [h3, mirrorStatus]
        · simp only [h1, h2, h3, or_self, if_false]
          cases env.cancelFails orderID <;> simp

/-- One run of the sweeper when the snapshot can be read: ledger and requests in
closed form. -/
theorem DeleteExpiredOrder_eq (env : SweepEnv) (now : Nat) (l : Ledger)
    (hq : env.queryFault = false) (hr : env.rowsFault = false) :
    (DeleteExpiredOrder env now l).ledger =
      l.map (fun o =>
        if o.OrderID ∈ (listExpired l now).filter (fun id => !env.scanFault id) ∧
            env.writeFault o.OrderID = false then
          { o with Status := (sweepDecision env o.OrderID).1 }
        else o) ∧
    (DeleteExpiredOrder env now l).calls =
      ((listExpired l now).filter (fun id => !env.scanFault id)).flatMap
        (fun id => (sweepDecision env id).2) ∧
    (DeleteExpiredOrder env now l).err = none := by
  simp [DeleteExpiredOrder, hq, hr, foldl_sweepOrder_ledger, foldl_sweepOrder_calls]

/-- Status of an order after a map over the rows that rewrites every row of that
order to the same status. -/
theorem statusOf_map_rewrite (l : Ledger) (f : Order → Order) (orderID status : String)
    (hid : ∀ o ∈ l, (f o).OrderID = o.OrderID)
    (hst : ∀ o ∈ l, o.OrderID = orderID → (f o).Status = status)
    (h : hasOrder l orderID = true) :
    statusOf (l.map f) orderID = some status := by
  induction l with
  | nil => simp [hasOrder] at h
  | cons o t ih =>
    have hido := hid o (List.mem_cons_self o t)
    by_cases ho : o.OrderID = orderID
    · have := hst o (List.mem_cons_self o t) ho
      simp [statusOf, hido, ho, this]
    · have ht : hasOrder t orderID = true := by
        simpa [hasOrder, ho] using h
      have := ih (fun p hp => hid p (List.mem_cons_of_mem o hp))
        (fun p hp => hst p (List.mem_cons_of_mem o hp)) ht
      simp [statusOf, hido, ho, this]

/-- Status of an order after a map over the rows that leaves every row of that order
alone. -/
theorem statusOf_map_frame (l : Ledger) (f : Order → Order) (orderID : String)
    (hid : ∀ o ∈ l, (f o).OrderID = o.OrderID)
    (hst : ∀ o ∈ l, o.OrderID = orderID → f o = o) :
    statusOf (l.map f) orderID = statusOf l orderID := by
  induction l with
  | nil => rfl
  | cons o t ih =>
    have hido := hid o (List.mem_cons_self o t)
    have := ih (fun p hp => hid p (List.mem_cons_of_mem o hp))
      (fun p hp => hst p (List.mem_cons_of_mem o hp))
    by_cases ho : o.OrderID = orderID
    · have hfo := hst o (List.mem_cons_self o t) ho
      simp [statusOf, ho, hfo]
    · simp [statusOf, hido, ho, this]

/-- Final status of an expired `created` order whose snapshot row is read and whose
status write works: the status decided from the processor's answers. -/
theorem sweep_status_of_expired (env : SweepEnv) (now : Nat) (l : Ledger) (o : Order)
    (hq : env.queryFault = false) (hr : env.rowsFault = false)
    (hs : env.scanFault o.OrderID = false) (hw : env.writeFault o.OrderID = false)
    (ho : o ∈ l) (hc : o.Status = "created") (he : o.ExpiresAt < now) :
    statusOf (DeleteExpiredOrder env now l).ledger o.OrderID =
      some (sweepDecision env o.OrderID).1 := by
  rw [(DeleteExpiredOrder_eq env now l hq hr).1]
  have hmem : o.OrderID ∈ (listExpired l now).filter (fun id => !env.scanFault id) := by
    rw [List.mem_filter]
    exact ⟨(mem_listExpired l now o.OrderID).2 ⟨o, ho, rfl, hc, he⟩, by simp [hs]⟩
  apply statusOf_map_rewrite
  · intro p _
    split_ifs <;> rfl
  · intro p _ hp
    rw [hp]
    simp [hmem, hw]
  · exact (hasOrder_iff l o.OrderID).2 ⟨o, ho, rfl⟩

/-- The processor requests one run of the sweeper makes for an order of its
snapshot are exactly those decided for that order. -/
theorem sweep_calls_mem (env : SweepEnv) (now : Nat) (l : Ledger) (call : StripeCall)
    (hq : env.queryFault = false) (hr : env.rowsFault = false) :
    call ∈ (DeleteExpiredOrder env now l).calls ↔
      ∃ id ∈ (listExpired l now).filter (fun id => !env.scanFault id),
        call ∈ (sweepDecision env id).2 := by
  rw [(DeleteExpiredOrder_eq env now l hq hr).2.1, List.mem_flatMap]

/-- The requests decided for an order concern that order only. -/
theorem sweepDecision_calls_id (env : SweepEnv) (id : String) (call : StripeCall)
    (h : call ∈ (sweepDecision env id).2) :
    call = StripeCall.get id ∨ call = StripeCall.cancel id "abandoned" := by
  unfold sweepDecision at h
  cases hg : env.get id with
  | none =>
    rw [hg] at h
    simp at h
    exact Or.inl h
  | some pi =>
    rw [hg] at h
    simp only [] at h
    split_ifs at h <;> simp at h <;> tauto

theorem sweepDecision_get_mem (env : SweepEnv) (id : String) :
    StripeCall.get id ∈ (sweepDecision env id).2 := by
  unfold sweepDecision
  cases env.get id with
  | none => simp
  | some pi =>
    simp only []
    split_ifs <;> simp

/-- A cancellation request for an order appears in a run of the sweeper only if the
decision for that very order contains it. -/
theorem sweep_cancel_mem (env : SweepEnv) (now : Nat) (l : Ledger) (id reason : String)
    (hq : env.queryFault = false) (hr : env.rowsFault = false)
    (h : StripeCall.cancel id reason ∈ (DeleteExpiredOrder env now l).calls) :
    StripeCall.cancel id reason ∈ (sweepDecision env id).2 := by
  obtain ⟨id2, _, hcall⟩ := (sweep_calls_mem env now l _ hq hr).1 h
  rcases sweepDecision_calls_id env id2 _ hcall with h1 | h1
  · cases h1
  · injection h1 with h2 _
    rw [← h2] at hcall
    exact hcall

/-! ## C1: two confirmations in sequence -/

/-- C1, counterexample. Two recorded orders for which two confirmations in sequence,
the processor reporting `succeeded`, dispatch no credit at all: an order whose
`sitetype` metadata is neither `international` nor `domestic`, and an expired order
that a run of the sweeper has already mirrored to `succeeded`. -/
theorem confirm_twice_without_credit :
    (hasOrder [orderCreated] "pi_1" = true ∧
      (successPageHandler (answering (intent "succeeded" "")) [orderCreated] "pi_1"
        "succeeded").credits = [] ∧
      (successPageHandler (answering (intent "succeeded" ""))
        (successPageHandler (answering (intent "succeeded" "")) [orderCreated] "pi_1"
          "succeeded").ledger "pi_1" "succeeded").credits = []) ∧
    (hasOrder (DeleteExpiredOrder (sweeping (some (intent "succeeded" "international"))
        false false) 2000 [orderCreated]).ledger "pi_1" = true ∧
      (successPageHandler (answering (intent "succeeded" "international"))
        (DeleteExpiredOrder (sweeping (some (intent "succeeded" "international"))
          false false) 2000 [orderCreated]).ledger "pi_1" "succeeded").credits = [] ∧
      (successPageHandler (answering (intent "succeeded" "international"))
        (successPageHandler (answering (intent "succeeded" "international"))
          (DeleteExpiredOrder (sweeping (some (intent "succeeded" "international"))
            false false) 2000 [orderCreated]).ledger "pi_1" "succeeded").ledger
        "pi_1" "succeeded").credits = []) := by
  decide

/-- C1, amended. For an order recorded in the ledger, two confirmations in sequence
dispatch at most one credit in total, whatever the processor and the database answer.
When the `payment_intent` is not empty, the processor reports `succeeded` to the
first run, no row of the order is `succeeded` yet, the `sitetype` metadata is
`international` or `domestic` and both ledger statements of the first run work, the
first run marks the order `succeeded` and dispatches exactly one credit (email and
amount from the metadata), and the second run dispatches none. -/
theorem confirm_twice_credits_once (l : Ledger) (orderID rs1 rs2 : String)
    (env1 env2 : ConfirmEnv) (hrec : hasOrder l orderID = true) :
    ((successPageHandler env1 l orderID rs1).credits ++
      (successPageHandler env2 (successPageHandler env1 l orderID rs1).ledger
        orderID rs2).credits).length ≤ 1 ∧
    (∀ pi1, orderID ≠ "" → env1.get orderID = some pi1 → pi1.Status = "succeeded" →
      (∀ o ∈ l, o.OrderID = orderID → o.Status ≠ "succeeded") →
      env1.processedFault = false → env1.updateFault = false →
      (metaField pi1 "sitetype" = "international" ∨ metaField pi1 "sitetype" = "domestic") →
      (successPageHandler env1 l orderID rs1).credits =
        [{ email := metaField pi1 "email", amount := metaAmount pi1,
           sitetype := if metaField pi1 "sitetype" = "international" then 1 else 2 }] ∧
      statusOf (successPageHandler env1 l orderID rs1).ledger orderID = some "succeeded" ∧
      (successPageHandler env2 (successPageHandler env1 l orderID rs1).ledger
        orderID rs2).credits = []) := by
  have hsecond : (successPageHandler env1 l orderID rs1).credits ≠ [] →
      (successPageHandler env2 (successPageHandler env1 l orderID rs1).ledger
        orderID rs2).credits = [] := by
    intro hne
    rw [(confirm_credits_ne_nil env1 l orderID rs1 hne).1]
    exact confirm_processed_no_credit env2 _ orderID rs2 (setStatus_processed l orderID hrec)
  refine ⟨?_, ?_⟩
  · by_cases hne : (successPageHandler env1 l orderID rs1).credits = []
    · rw [hne, List.nil_append]
      exact confirm_credits_length env2 _ orderID rs2
    · rw [hsecond hne, List.append_nil]
      exact confirm_credits_length env1 l orderID rs1
  · intro pi1 hid hget hst hnew hpf huf hsite
    have hnew2 : ¬ ∃ o ∈ l, o.OrderID = orderID ∧ o.Status = "succeeded" := by
      rintro ⟨o, ho, hoid, hos⟩
      exact hnew o ho hoid hos
    have hrun := confirm_crediting_run env1 l orderID rs1 pi1 hid hget hst hpf huf hnew2
    have hcred : (successPageHandler env1 l orderID rs1).credits =
        [{ email := metaField pi1 "email", amount := metaAmount pi1,
           sitetype := if metaField pi1 "sitetype" = "international" then 1 else 2 }] := by
      rw [hrun.2]
      rcases hsite with h | h
      · simp [dispatchCredit, h]
      · simp [dispatchCredit, h]
    refine ⟨hcred, ?_, ?_⟩
    · rw [hrun.1]
      exact statusOf_setStatus_self l orderID "succeeded" hrec
    · apply hsecond
      rw [hcred]
      simp

/-- C1, instance. The recorded order `pi_1` of the domestic site, confirmed twice: one
credit of 100000 for realm 2, then none. -/
theorem confirm_twice_credits_once_witness :
    hasOrder [orderCreated] "pi_1" = true ∧
    (successPageHandler (answering (intent "succeeded" "domestic")) [orderCreated] "pi_1"
      "succeeded").credits = [{ email := "a@b.com", amount := 100000, sitetype := 2 }] ∧
    (successPageHandler (answering (intent "succeeded" "domestic"))
      (successPageHandler (answering (intent "succeeded" "domestic")) [orderCreated]
        "pi_1" "succeeded").ledger "pi_1" "succeeded").credits = [] := by
  have h := (confirm_twice_credits_once [orderCreated] "pi_1" "succeeded" "succeeded"
    (answering (intent "succeeded" "domestic")) (answering (intent "succeeded" "domestic"))
    (by decide)).2 (intent "succeeded" "domestic") (by decide) rfl rfl (by decide) rfl rfl
    (by decide)
  refine ⟨by decide, ?_, h.2.2⟩
  rw [h.1]
  decide

/-! ## C2: no second credit for the same order -/

/-- C2, the failing run. `pi_1` is a payment intent the processor reports as
`succeeded` but that has no row in the ledger.  Two confirmations in sequence each
find `IsOrderProcessed` false, each `UPDATE` touches no row and returns no error, and
each run dispatches the credit: the order is credited twice, and the ledger is still
empty afterwards. -/
theorem unrecorded_order_credited_twice :
    creditsFor "pi_1" []
      [Op.confirm (answering (intent "succeeded" "international")) "pi_1" "succeeded",
       Op.confirm (answering (intent "succeeded" "international")) "pi_1" "succeeded"] =
      [{ email := "a@b.com", amount := 100000, sitetype := 1 },
       { email := "a@b.com", amount := 100000, sitetype := 1 }] ∧
    runOps []
      [Op.confirm (answering (intent "succeeded" "international")) "pi_1" "succeeded",
       Op.confirm (answering (intent "succeeded" "international")) "pi_1" "succeeded"] =
      [] := by
  decide

/-! ## The gate on recorded orders

What the guard of `successPageHandler` does achieve: along any sequence of
`RecordOrder`, confirmations and whole runs of the sweeper, an order that has a row in
the ledger is credited at most once. -/

/-- A run of the sweeper rewrites rows in place: either nothing changes, or the ledger
is the closed form of `DeleteExpiredOrder_eq`. -/
theorem DeleteExpiredOrder_ledger (env : SweepEnv) (now : Nat) (l : Ledger) :
    (DeleteExpiredOrder env now l).ledger = l ∨
    (DeleteExpiredOrder env now l).ledger =
      l.map (fun o =>
        if o.OrderID ∈ (listExpired l now).filter (fun id => !env.scanFault id) ∧
            env.writeFault o.OrderID = false then
          { o with Status := (sweepDecision env o.OrderID).1 }
        else o) := by
  cases hq : env.queryFault with
  | true => exact Or.inl (by simp [DeleteExpiredOrder, hq])
  | false =>
    cases hr : env.rowsFault with
    | true => exact Or.inl (by simp [DeleteExpiredOrder, hq, hr])
    | false => exact Or.inr (DeleteExpiredOrder_eq env now l hq hr).1

/-- No operation removes an order from the ledger. -/
theorem applyOp_hasOrder (l : Ledger) (op : Op) (orderID : String)
    (h : hasOrder l orderID = true) : hasOrder (applyOp l op) orderID = true := by
  cases op with
  | record fault now id status expiresAt =>
    simp only [applyOp, RecordOrder]
    split_ifs
    · exact h
    · exact h
    · rw [hasOrder_iff] at h ⊢
      obtain ⟨o, ho, hoid⟩ := h
      exact ⟨o, List.mem_append_left _ ho, hoid⟩
  | confirm env id rs =>
    simp only [applyOp]
    rcases confirm_ledger env l id rs with h2 | h2
    · rw [h2]; exact h
    · rw [h2, hasOrder_setStatus]; exact h
  | sweep env now =>
    simp only [applyOp]
    rcases DeleteExpiredOrder_ledger env now l with h2 | h2
    · rw [h2]; exact h
    · rw [h2, hasOrder_iff] at *
      obtain ⟨o, ho, hoid⟩ := h
      refine ⟨_, List.mem_map_of_mem _ ho, ?_⟩
      split_ifs <;> exact hoid

/-- Once every row of a recorded order is `succeeded`, no operation changes that. -/
theorem applyOp_succeeded (l : Ledger) (op : Op) (orderID : String)
    (hrec : hasOrder l orderID = true)
    (h : ∀ o ∈ l, o.OrderID = orderID → o.Status = "succeeded") :
    ∀ o ∈ applyOp l op, o.OrderID = orderID → o.Status = "succeeded" := by
  cases op with
  | record fault now id status expiresAt =>
    simp only [applyOp, RecordOrder]
    split_ifs with hf hdup
    · exact h
    · exact h
    · intro o ho hoid
      rcases List.mem_append.1 ho with ho | ho
      · exact h o ho hoid
      · exfalso
        simp only [List.mem_singleton] at ho
        rw [ho] at hoid
        simp only at hoid
        rw [hoid] at hdup
        exact hdup hrec
  | confirm env id rs =>
    simp only [applyOp]
    rcases confirm_ledger env l id rs with h2 | h2
    · rw [h2]; exact h
    · rw [h2]
      intro o ho hoid
      obtain ⟨p, hp, rfl⟩ := (mem_setStatus l id "succeeded" o).1 ho
      by_cases hpid : p.OrderID = id
      · simp [hpid]
      · rw [if_neg hpid] at hoid ⊢
        exact h p hp hoid
  | sweep env now =>
    simp only [applyOp]
    rcases DeleteExpiredOrder_ledger env now l with h2 | h2
    · rw [h2]; exact h
    · rw [h2]
      intro o ho hoid
      obtain ⟨p, hp, rfl⟩ := List.mem_map.1 ho
      have hpid : p.OrderID = orderID := by
        split_ifs at hoid <;> exact hoid
      have hnot : p.OrderID ∉ (listExpired l now).filter (fun id => !env.scanFault id) := by
        intro hmem
        obtain ⟨q, hq, hqid, hqc, _⟩ :=
          (mem_listExpired l now p.OrderID).1 (List.mem_filter.1 hmem).1
        have := h q hq (hqid.trans hpid)
        rw [hqc] at this
        revert this
        decide
      simp only [hnot, false_and, if_false]
      exact h p hp hpid

/-- Once every row of a recorded order is `succeeded`, no later confirmation
dispatches a credit for it. -/
theorem creditsFor_succeeded (ops : List Op) (l : Ledger) (orderID : String)
    (hrec : hasOrder l orderID = true)
    (h : ∀ o ∈ l, o.OrderID = orderID → o.Status = "succeeded") :
    creditsFor orderID l ops = [] := by
  induction ops generalizing l with
  | nil => rfl
  | cons op ops ih =>
    have hhead : creditsOf orderID l op = [] := by
      cases op with
      | record fault now id status expiresAt => rfl
      | sweep env now => rfl
      | confirm env id rs =>
        simp only [creditsOf]
        split_ifs with hid
        · subst hid
          obtain ⟨o, ho, hoid⟩ := (hasOrder_iff l id).1 hrec
          exact confirm_processed_no_credit env l id rs ⟨o, ho, hoid, h o ho hoid⟩
        · rfl
    simp only [creditsFor, hhead, List.nil_append]
    exact ih (applyOp l op) (applyOp_hasOrder l op orderID hrec)
      (applyOp_succeeded l op orderID hrec h)

/-- An order that has a row in the ledger is credited at most once along any sequence
of `RecordOrder`, confirmations and whole runs of the sweeper, whatever the processor
and the database answer. -/
theorem recorded_order_credited_at_most_once (ops : List Op) (l : Ledger)
    (orderID : String) (hrec : hasOrder l orderID = true) :
    (creditsFor orderID l ops).length ≤ 1 := by
  induction ops generalizing l with
  | nil => simp [creditsFor]
  | cons op ops ih =>
    simp only [creditsFor, List.length_append]
    by_cases hne : creditsOf orderID l op = []
    · rw [hne]
      simpa using ih (applyOp l op) (applyOp_hasOrder l op orderID hrec)
    · cases op with
      | record fault now id status expiresAt => exact absurd rfl hne
      | sweep env now => exact absurd rfl hne
      | confirm env id rs =>
        simp only [creditsOf] at hne ⊢
        split_ifs at hne ⊢ with hid
        · subst hid
          have hl := (confirm_credits_ne_nil env l id rs hne).1
          have hrest : creditsFor id (applyOp l (Op.confirm env id rs)) ops = [] := by
            apply creditsFor_succeeded
            · exact applyOp_hasOrder l _ id hrec
            · simp only [applyOp, hl]
              intro o ho hoid
              obtain ⟨p, hp, rfl⟩ := (mem_setStatus l id "succeeded" o).1 ho
              by_cases hpid : p.OrderID = id
              · simp [hpid]
              · rw [if_neg hpid] at hoid
                exact absurd hoid hpid
          rw [hrest]
          simpa using confirm_credits_length env l id rs
        · exact absurd rfl hne

/-- Instance: a confirmation, a run of the sweeper and a second confirmation of the
recorded order `pi_1`. -/
theorem recorded_order_credited_at_most_once_witness :
    hasOrder [orderCreated] "pi_1" = true ∧
    (creditsFor "pi_1" [orderCreated]
      [Op.confirm (answering (intent "succeeded" "international")) "pi_1" "succeeded",
       Op.sweep (sweeping none false false) 2000,
       Op.confirm (answering (intent "succeeded" "international")) "pi_1"
         "succeeded"]).length ≤ 1 :=
  ⟨by decide, recorded_order_credited_at_most_once _ [orderCreated] "pi_1" (by decide)⟩

/-! ## C5: expired `created` orders after one sweep -/

/-- C5, counterexample. The order is `created` and expired, the processor reports
`processing` and refuses the cancellation, and the status write of the sweeper fails
(the error is only logged): after the run the order is still `created`. -/
theorem sweep_failed_write_stays_created :
    orderCreated ∈ [orderCreated] ∧ orderCreated.Status = "created" ∧
    orderCreated.ExpiresAt < 2000 ∧
    statusOf (DeleteExpiredOrder (sweeping (some (intent "processing" "domestic")) true true)
      2000 [orderCreated]).ledger orderCreated.OrderID = some "created" := by
  decide

/-- C5, amended. After one run of `DeleteExpiredOrder` in which the snapshot is read
without error, every order that was `created` with `expires_at < now` and whose
status write returns no error has a status among `succeeded`, `canceled`,
`requires_capture`, `canceled_due_to_error`, `error_retrieving`, whatever the
processor answers; it is not `created` any more. -/
theorem sweep_expired_reaches_outcome (env : SweepEnv) (now : Nat) (l : Ledger) (o : Order)
    (hq : env.queryFault = false) (hr : env.rowsFault = false)
    (hs : env.scanFault o.OrderID = false) (hw : env.writeFault o.OrderID = false)
    (ho : o ∈ l) (hc : o.Status = "created") (he : o.ExpiresAt < now) :
    ∃ st, statusOf (DeleteExpiredOrder env now l).ledger o.OrderID = some st ∧
      st ∈ ["succeeded", "canceled", "requires_capture", "canceled_due_to_error",
        "error_retrieving"] ∧ st ≠ "created" := by
  refine ⟨(sweepDecision env o.OrderID).1,
    sweep_status_of_expired env now l o hq hr hs hw ho hc he,
    sweepDecision_status env o.OrderID, ?_⟩
  have h := sweepDecision_status env o.OrderID
  intro hcr
  rw [hcr] at h
  revert h
  decide

/-- C5, instance. The processor reports `processing` and refuses the cancellation; the
write works. -/
theorem sweep_expired_reaches_outcome_witness :
    orderCreated ∈ [orderCreated] ∧ orderCreated.Status = "created" ∧
    orderCreated.ExpiresAt < 2000 ∧
    ∃ st, statusOf (DeleteExpiredOrder
        (sweeping (some (intent "processing" "domestic")) true false) 2000
        [orderCreated]).ledger orderCreated.OrderID = some st ∧
      st ∈ ["succeeded", "canceled", "requires_capture", "canceled_due_to_error",
        "error_retrieving"] ∧ st ≠ "created" :=
  ⟨by decide, rfl, by decide,
    sweep_expired_reaches_outcome (sweeping (some (intent "processing" "domestic")) true false)
      2000 [orderCreated] orderCreated rfl rfl rfl rfl (by decide) rfl (by decide)⟩

/-! ## C6: cancelling an abandoned order -/

/-- C6, counterexample. The processor reports `requires_payment_method` and accepts
the cancellation, but the status write fails: the cancellation has been requested and
the final ledger status is `created`, not `canceled`. -/
theorem sweep_cancelled_but_not_written :
    StripeCall.cancel "pi_1" "abandoned" ∈
      (DeleteExpiredOrder (sweeping (some (intent "requires_payment_method" "domestic"))
        false true) 2000 [orderCreated]).calls ∧
    statusOf (DeleteExpiredOrder (sweeping (some (intent "requires_payment_method" "domestic"))
      false true) 2000 [orderCreated]).ledger "pi_1" = some "created" := by
  decide

/-- C6, amended. For an expired `created` order whose remote state is none of
`canceled`, `succeeded`, `requires_capture`, the sweep requests cancellation with
reason `abandoned`; when the status write returns no error, the final ledger status is
`canceled` if the cancellation succeeds and `canceled_due_to_error` if it fails. -/
theorem sweep_cancels_abandoned (env : SweepEnv) (now : Nat) (l : Ledger) (o : Order)
    (pi : PaymentIntent)
    (hq : env.queryFault = false) (hr : env.rowsFault = false)
    (hs : env.scanFault o.OrderID = false)
    (ho : o ∈ l) (hc : o.Status = "created") (he : o.ExpiresAt < now)
    (hget : env.get o.OrderID = some pi)
    (h1 : pi.Status ≠ "canceled") (h2 : pi.Status ≠ "succeeded")
    (h3 : pi.Status ≠ "requires_capture") :
    StripeCall.cancel o.OrderID "abandoned" ∈ (DeleteExpiredOrder env now l).calls ∧
    (env.writeFault o.OrderID = false →
      statusOf (DeleteExpiredOrder env now l).ledger o.OrderID =
        some (if env.cancelFails o.OrderID then "canceled_due_to_error" else "canceled")) := by
  have hmem : o.OrderID ∈ (listExpired l now).filter (fun id => !env.scanFault id) := by
    rw [List.mem_filter]
    exact ⟨(mem_listExpired l now o.OrderID).2 ⟨o, ho, rfl, hc, he⟩, by simp [hs]⟩
  have hd : sweepDecision env o.OrderID =
      (if env.cancelFails o.OrderID then "canceled_due_to_error" else "canceled",
        [StripeCall.get o.OrderID, StripeCall.cancel o.OrderID "abandoned"]) := by
    unfold sweepDecision
    rw [hget]
    simp only [h1, h2, h3, or_self, if_false]
    cases env.cancelFails o.OrderID <;> simp
  refine ⟨?_, ?_⟩
  · rw [sweep_calls_mem env now l _ hq hr]
    exact ⟨o.OrderID, hmem, by rw [hd]; simp⟩
  · intro hw
    rw [sweep_status_of_expired env now l o hq hr hs hw ho hc he, hd]

/-- C6, instance. The processor reports `requires_payment_method` and cancels; the final
status is `canceled`. -/
theorem sweep_cancels_abandoned_witness :
    orderCreated ∈ [orderCreated] ∧ orderCreated.Status = "created" ∧
    orderCreated.ExpiresAt < 2000 ∧
    statusOf (DeleteExpiredOrder
      (sweeping (some (intent "requires_payment_method" "domestic")) false false) 2000
      [orderCreated]).ledger orderCreated.OrderID = some "canceled" :=
  ⟨by decide, rfl, by decide,
    (sweep_cancels_abandoned
      (sweeping (some (intent "requires_payment_method" "domestic")) false false) 2000
      [orderCreated] orderCreated (intent "requires_payment_method" "domestic")
      rfl rfl rfl (by decide) rfl (by decide) rfl (by decide) (by decide) (by decide)).2 rfl⟩

/-! ## C7: mirroring a state the processor has already resolved -/

/-- C7, counterexample. The processor reports `canceled` for an expired `created`
order and the status write fails: the ledger status stays `created`, the remote value
has not been written. -/
theorem sweep_mirror_not_written :
    statusOf (DeleteExpiredOrder (sweeping (some (intent "canceled" "domestic")) false true)
      2000 [orderCreated]).ledger "pi_1" = some "created" ∧
    (intent "canceled" "domestic").Status = "canceled" := by
  decide

/-- C7, amended. For an expired `created` order whose remote state is `canceled`,
`succeeded` or `requires_capture`, the sweep makes no cancellation request for that
order and calls `UpdateOrderStatus` with exactly the remote value; when that write
returns no error, the order's ledger status is that value. -/
theorem sweep_mirrors_resolved (env : SweepEnv) (now : Nat) (l : Ledger) (o : Order)
    (pi : PaymentIntent)
    (hq : env.queryFault = false) (hr : env.rowsFault = false)
    (hs : env.scanFault o.OrderID = false)
    (ho : o ∈ l) (hc : o.Status = "created") (he : o.ExpiresAt < now)
    (hget : env.get o.OrderID = some pi)
    (hst : pi.Status = "canceled" ∨ pi.Status = "succeeded" ∨
      pi.Status = "requires_capture") :
    (∀ reason, StripeCall.cancel o.OrderID reason ∉ (DeleteExpiredOrder env now l).calls) ∧
    (∀ st, sweepOrder env st o.OrderID =
      ((UpdateOrderStatus (env.writeFault o.OrderID) st.1 o.OrderID pi.Status false).1,
        st.2 ++ [StripeCall.get o.OrderID])) ∧
    (env.writeFault o.OrderID = false →
      statusOf (DeleteExpiredOrder env now l).ledger o.OrderID = some pi.Status) := by
  have hm : mirrorStatus pi.Status = pi.Status := by
    rcases hst with h | h | h <;> rw [h] <;> decide
  have hd : sweepDecision env o.OrderID = (pi.Status, [StripeCall.get o.OrderID]) := by
    unfold sweepDecision
    rw [hget]
    simp only [hst, if_true, hm]
  refine ⟨?_, ?_, ?_⟩
  · intro reason hmem
    have := sweep_cancel_mem env now l o.OrderID reason hq hr hmem
    rw [hd] at this
    simp at this
  · intro st
    simp only [sweepOrder, hd]
  · intro hw
    rw [sweep_status_of_expired env now l o hq hr hs hw ho hc he, hd]

/-- C7, instance. The processor reports `requires_capture`; the ledger mirrors it. -/
theorem sweep_mirrors_resolved_witness :
    orderCreated ∈ [orderCreated] ∧ orderCreated.Status = "created" ∧
    orderCreated.ExpiresAt < 2000 ∧
    statusOf (DeleteExpiredOrder
      (sweeping (some (intent "requires_capture" "domestic")) false false) 2000
      [orderCreated]).ledger orderCreated.OrderID = some "requires_capture" :=
  ⟨by decide, rfl, by decide,
    (sweep_mirrors_resolved
      (sweeping (some (intent "requires_capture" "domestic")) false false) 2000
      [orderCreated] orderCreated (intent "requires_capture" "domestic")
      rfl rfl rfl (by decide) rfl (by decide) rfl (by decide)).2.2 rfl⟩

/-! ## C8: a failed remote query -/

/-- C8, counterexample. The query of the remote state fails for an expired `created`
order and so does the status write: the ledger status stays `created`, it has not
been set to `error_retrieving`. -/
theorem sweep_query_failure_not_written :
    (sweeping none false true).get "pi_1" = none ∧
    statusOf (DeleteExpiredOrder (sweeping none false true) 2000
      [orderCreated]).ledger "pi_1" = some "created" := by
  decide

/-- C8, amended. For an expired `created` order whose remote state query fails, the
sweep makes no cancellation request for it and calls `UpdateOrderStatus` with
`error_retrieving`; when that write returns no error, the order's ledger status is
`error_retrieving`.  The sweep goes on: every order of the snapshot is still queried,
and ends with the status decided for it when its own write returns no error. -/
theorem sweep_query_failure (env : SweepEnv) (now : Nat) (l : Ledger) (o : Order)
    (hq : env.queryFault = false) (hr : env.rowsFault = false)
    (hs : env.scanFault o.OrderID = false)
    (ho : o ∈ l) (hc : o.Status = "created") (he : o.ExpiresAt < now)
    (hget : env.get o.OrderID = none) :
    (∀ reason, StripeCall.cancel o.OrderID reason ∉ (DeleteExpiredOrder env now l).calls) ∧
    (∀ st, sweepOrder env st o.OrderID =
      ((UpdateOrderStatus (env.writeFault o.OrderID) st.1 o.OrderID "error_retrieving"
          false).1, st.2 ++ [StripeCall.get o.OrderID])) ∧
    (env.writeFault o.OrderID = false →
      statusOf (DeleteExpiredOrder env now l).ledger o.OrderID = some "error_retrieving") ∧
    (∀ o2 ∈ l, o2.Status = "created" → o2.ExpiresAt < now →
      env.scanFault o2.OrderID = false →
      StripeCall.get o2.OrderID ∈ (DeleteExpiredOrder env now l).calls ∧
      (env.writeFault o2.OrderID = false →
        statusOf (DeleteExpiredOrder env now l).ledger o2.OrderID =
          some (sweepDecision env o2.OrderID).1)) := by
  have hd : sweepDecision env o.OrderID = ("error_retrieving", [StripeCall.get o.OrderID]) := by
    unfold sweepDecision
    rw [hget]
  refine ⟨?_, ?_, ?_, ?_⟩
  · intro reason hmem
    have := sweep_cancel_mem env now l o.OrderID reason hq hr hmem
    rw [hd] at this
    simp at this
  · intro st
    simp only [sweepOrder, hd]
  · intro hw
    rw [sweep_status_of_expired env now l o hq hr hs hw ho hc he, hd]
  · intro o2 ho2 hc2 he2 hs2
    refine ⟨?_, fun hw2 => sweep_status_of_expired env now l o2 hq hr hs2 hw2 ho2 hc2 he2⟩
    rw [sweep_calls_mem env now l _ hq hr]
    refine ⟨o2.OrderID, ?_, sweepDecision_get_mem env o2.OrderID⟩
    rw [List.mem_filter]
    exact ⟨(mem_listExpired l now o2.OrderID).2 ⟨o2, ho2, rfl, hc2, he2⟩, by simp [hs2]⟩

/-- C8, instance. The query of the remote state fails; the order ends as
`error_retrieving`. -/
theorem sweep_query_failure_witness :
    orderCreated ∈ [orderCreated] ∧ orderCreated.Status = "created" ∧
    orderCreated.ExpiresAt < 2000 ∧
    statusOf (DeleteExpiredOrder (sweeping none false false) 2000
      [orderCreated]).ledger orderCreated.OrderID = some "error_retrieving" :=
  ⟨by decide, rfl, by decide,
    (sweep_query_failure (sweeping none false false) 2000 [orderCreated] orderCreated
      rfl rfl rfl (by decide) rfl (by decide) rfl).2.2.1 rfl⟩

/-! ## C9: the sweeper's write after a concurrent confirmation -/

/-- C9, counterexample. The sweeper takes its snapshot while `pi_1` is `created` and
expired; before the sweeper reaches the order, a confirmation marks it `succeeded`
(and dispatches the credit); then the sweeper's query of the remote state fails and
its write of `error_retrieving` takes effect although the status at the moment of the
write is `succeeded`, not `created`. -/
theorem sweep_overwrites_succeeded :
    (runSteps { ledger := [orderCreated], pending := [] }
      [Step.snapshot (sweeping none false false) 2000]).pending = ["pi_1"] ∧
    statusOf (runSteps { ledger := [orderCreated], pending := [] }
      [Step.snapshot (sweeping none false false) 2000,
       Step.handler (Op.confirm (answering (intent "succeeded" "international")) "pi_1"
         "succeeded")]).ledger "pi_1" = some "succeeded" ∧
    statusOf (runSteps { ledger := [orderCreated], pending := [] }
      [Step.snapshot (sweeping none false false) 2000,
       Step.handler (Op.confirm (answering (intent "succeeded" "international")) "pi_1"
         "succeeded"),
       Step.sweepNext (sweeping none false false)]).ledger "pi_1" =
      some "error_retrieving" := by
  decide

/-- C9, amended. The sweeper only selects orders that are `created` and expired when
its snapshot is taken.  Its per-order write is unconditional: for the next order of
the snapshot, when the write returns no error, the order's status becomes the one
decided from the processor's answers whatever status the order has at the moment of
the write, `succeeded` included. -/
theorem sweepNext_write_unconditional (env : SweepEnv) (s : SysState) :
    (∀ now, ∀ id ∈ (step s (Step.snapshot env now)).pending,
      ∃ o ∈ s.ledger, o.OrderID = id ∧ o.Status = "created" ∧ o.ExpiresAt < now) ∧
    (∀ id rest, s.pending = id :: rest → env.writeFault id = false →
      hasOrder s.ledger id = true →
      statusOf (step s (Step.sweepNext env)).ledger id = some (sweepDecision env id).1 ∧
      (step s (Step.sweepNext env)).pending = rest) := by
  refine ⟨?_, ?_⟩
  · intro now id hid
    simp only [step] at hid
    split_ifs at hid
    · simp at hid
    · exact (mem_listExpired s.ledger now id).1 (List.mem_filter.1 hid).1
  · intro id rest hp hw hrec
    simp only [step, hp, sweepOrder, UpdateOrderStatus, hw, Bool.false_eq_true, if_false]
    exact ⟨statusOf_setStatus_self s.ledger id _ hrec, trivial⟩

/-- C9, instance. The next order of the snapshot is already `succeeded` in the ledger;
the sweeper's write turns it into `canceled_due_to_error`. -/
theorem sweepNext_write_unconditional_witness :
    hasOrder [orderSucceeded] "pi_1" = true ∧
    statusOf (step { ledger := [orderSucceeded], pending := ["pi_1"] }
      (Step.sweepNext (sweeping (some (intent "processing" "domestic")) true false))).ledger
      "pi_1" = some "canceled_due_to_error" := by
  have h := ((sweepNext_write_unconditional
    (sweeping (some (intent "processing" "domestic")) true false)
    { ledger := [orderSucceeded], pending := ["pi_1"] }).2 "pi_1" [] rfl rfl (by decide)).1
  refine ⟨by decide, ?_⟩
  rw [h]
  decide

/-! ## C10: a confirmation whose outcome is not `succeeded` -/

/-- C10, counterexample. The processor reports `canceled` for the recorded order
`pi_1`: the handler answers 400 and leaves the ledger as it was, the order's status is
still `created`. -/
theorem confirm_canceled_keeps_created :
    (successPageHandler (answering (intent "canceled" "international")) [orderCreated]
      "pi_1" "failed").ledger = [orderCreated] ∧
    statusOf (successPageHandler (answering (intent "canceled" "international"))
      [orderCreated] "pi_1" "failed").ledger "pi_1" = some "created" ∧
    (successPageHandler (answering (intent "canceled" "international")) [orderCreated]
      "pi_1" "failed").responses = [Response.json 400, Response.text 400] := by
  decide

/-- C10, amended. Whenever the processor does not report `succeeded` for the payment
intent (it reports another status, or the query fails), the confirmation leaves the
ledger unchanged and dispatches no credit, whatever `redirect_status` says. -/
theorem confirm_not_succeeded_no_effect (env : ConfirmEnv) (l : Ledger)
    (orderID redirectStatus : String)
    (h : ∀ pi, env.get orderID = some pi → pi.Status ≠ "succeeded") :
    (successPageHandler env l orderID redirectStatus).ledger = l ∧
    (successPageHandler env l orderID redirectStatus).credits = [] := by
  rcases confirm_cases env l orderID redirectStatus with h2 | ⟨pi, _, hget, hst, _⟩
  · exact h2
  · exact absurd hst (h pi hget)

/-- C10, instance. The processor reports `requires_payment_method` for the recorded
order `pi_1`. -/
theorem confirm_not_succeeded_no_effect_witness :
    (successPageHandler (answering (intent "requires_payment_method" "international"))
      [orderCreated] "pi_1" "succeeded").ledger = [orderCreated] ∧
    (successPageHandler (answering (intent "requires_payment_method" "international"))
      [orderCreated] "pi_1" "succeeded").credits = [] :=
  confirm_not_succeeded_no_effect
    (answering (intent "requires_payment_method" "international")) [orderCreated] "pi_1"
    "succeeded" (by
      intro pi hpi
      have : pi = intent "requires_payment_method" "international" := by
        simpa [answering] using hpi.symm
      rw [this]
      decide)

/-! ## C11: the ledger write comes before the credit -/

/-- In a split of a list at an element with property `p`, a block at the start of the
list that has no element with `p` lies before the split point. -/
theorem mem_before_split {α : Type} (p : α → Prop) (a : α) (hp : p a) :
    ∀ (front pre post rest : List α), (∀ x ∈ front, ¬ p x) →
      pre ++ a :: post = front ++ rest → ∀ x ∈ front, x ∈ pre := by
  intro front
  induction front with
  | nil => intro _ _ _ _ _ x hx; cases hx
  | cons e t ih =>
    intro pre post rest hfront h x hx
    cases pre with
    | nil =>
      simp only [List.nil_append, List.cons_append, List.cons.injEq] at h
      exact absurd (h.1 ▸ hp) (hfront e (List.mem_cons_self e t))
    | cons q pre2 =>
      simp only [List.cons_append, List.cons.injEq] at h
      rcases List.mem_cons.1 hx with hx | hx
      · rw [hx, ← h.1]
        exact List.mem_cons_self q pre2
      · exact List.mem_cons_of_mem q
          (ih pre2 post rest (fun y hy => hfront y (List.mem_cons_of_mem e hy)) h.2 x hx)

/-- The actions of a run of the handler that does not credit contain no `go finishPay`;
those of the crediting run are: the early response if any, the query of the processor,
`IsOrderProcessed`, `UpdateOrderStatus` returning no error, then the credit, then the
page. -/
theorem confirm_events_cases (env : ConfirmEnv) (l : Ledger) (orderID rs : String) :
    ((∀ c, Event.finishPay c ∉ successPageHandlerEvents env l orderID rs) ∧
      (successPageHandler env l orderID rs).credits = []) ∨
    (∃ pi, orderID ≠ "" ∧ env.get orderID = some pi ∧ pi.Status = "succeeded" ∧
      env.processedFault = false ∧ env.updateFault = false ∧
      (¬ ∃ o ∈ l, o.OrderID = orderID ∧ o.Status = "succeeded") ∧
      successPageHandlerEvents env l orderID rs =
        ((if rs ≠ "succeeded" then [Event.respond (Response.json 400)] else []) ++
          [Event.processorGet orderID, Event.ledgerRead orderID none,
            Event.ledgerWrite orderID "succeeded" none]) ++
        ((dispatchCredit (metaField pi "email") (metaField pi "sitetype")
            (metaAmount pi)).map Event.finishPay ++
          [Event.respond
            (Response.html 200 (metaField pi "email") (metaField pi "sitetype"))])) := by
  have hearly : ∀ c, Event.finishPay c ∉
      (if rs ≠ "succeeded" then [Event.respond (Response.json 400)] else []) := by
    intro c
    split_ifs <;> simp
  by_cases hid : orderID = ""
  · left
    refine ⟨fun c => ?_, ?_⟩
    · simp [successPageHandlerEvents, hid, hearly c]
    · simp [successPageHandler, hid]
  cases hget : env.get orderID with
  | none =>
    left
    refine ⟨fun c => ?_, ?_⟩
    · simp [successPageHandlerEvents, hid, hget, hearly c]
    · simp [successPageHandler, hid, hget]
  | some pi =>
    by_cases hst : pi.Status = "succeeded"
    · cases hpf : env.processedFault with
      | true =>
        left
        refine ⟨fun c => ?_, ?_⟩
        · simp [successPageHandlerEvents, hid, hget, hst, hpf, IsOrderProcessed, hearly c]
        · simp [successPageHandler, hid, hget, hst, hpf, IsOrderProcessed]
      | false =>
        have hp2 : (IsOrderProcessed false l orderID).2 = none := by
          simp [IsOrderProcessed]
        by_cases hp : (IsOrderProcessed false l orderID).1 = true
        · left
          refine ⟨fun c => ?_, ?_⟩
          · simp [successPageHandlerEvents, hid, hget, hst, hpf, hp, hp2, hearly c]
          · simp [successPageHandler, hid, hget, hst, hpf, hp, hp2]
        · cases huf : env.updateFault with
          | true =>
            left
            refine ⟨fun c => ?_, ?_⟩
            · simp [successPageHandlerEvents, hid, hget, hst, hpf, hp, hp2, huf,
                UpdateOrderStatus, hearly c]
            · simp [successPageHandler, hid, hget, hst, hpf, hp, hp2, huf,
                UpdateOrderStatus]
          | false =>
            right
            refine ⟨pi, hid, rfl, hst, rfl, rfl,
              fun h => hp ((isProcessed_iff l orderID).2 h), ?_⟩
            simp [successPageHandlerEvents, hid, hget, hst, hpf, hp, hp2, huf,
              UpdateOrderStatus]
    · left
      by_cases hc : pi.Status = "canceled" ∨ pi.Status = "requires_payment_method"
      · exact ⟨fun c => by simp [successPageHandlerEvents, hid, hget, hst, hc, hearly c],
          by simp [successPageHandler, hid, hget, hst, hc]⟩
      · exact ⟨fun c => by simp [successPageHandlerEvents, hid, hget, hst, hc, hearly c],
          by simp [successPageHandler, hid, hget, hst, hc]⟩

/-- C11. In every run of `successPageHandler`, each `go finishPay` comes after the call
`UpdateOrderStatus(paymentIntentID, "succeeded", false)` has returned without error:
in the sequence of the handler's actions that write precedes every credit, the credits
of the run are exactly the `go finishPay` actions of the sequence, and a run that
dispatches a credit returns the ledger as that write left it.  If the write returns an
error, no credit is dispatched. -/
theorem confirm_write_before_credit (env : ConfirmEnv) (l : Ledger) (orderID rs : String) :
    (successPageHandlerEvents env l orderID rs).filterMap Event.credit =
      (successPageHandler env l orderID rs).credits ∧
    (∀ pre c post,
      successPageHandlerEvents env l orderID rs = pre ++ Event.finishPay c :: post →
      Event.ledgerWrite orderID "succeeded" none ∈ pre) ∧
    ((successPageHandler env l orderID rs).credits ≠ [] →
      (UpdateOrderStatus env.updateFault l orderID "succeeded" false).2 = none ∧
      (successPageHandler env l orderID rs).ledger =
        (UpdateOrderStatus env.updateFault l orderID "succeeded" false).1) ∧
    ((UpdateOrderStatus env.updateFault l orderID "succeeded" false).2 ≠ none →
      (successPageHandler env l orderID rs).credits = [] ∧
      ∀ c, Event.finishPay c ∉ successPageHandlerEvents env l orderID rs) := by
  rcases confirm_events_cases env l orderID rs with
    ⟨hno, hcred⟩ | ⟨pi, hid, hget, hst, hpf, huf, hnew, hev⟩
  · refine ⟨?_, ?_, ?_, ?_⟩
    · rw [hcred, List.filterMap_eq_nil_iff]
      intro e he
      cases e with
      | finishPay c => exact absurd he (hno c)
      | respond r => rfl
      | processorGet id => rfl
      | ledgerRead id err => rfl
      | ledgerWrite id st err => rfl
    · intro pre c post h
      exact absurd (by rw [h]; simp) (hno c)
    · intro h
      exact absurd hcred h
    · intro _
      exact ⟨hcred, hno⟩
  · have hrun := confirm_crediting_run env l orderID rs pi hid hget hst hpf huf hnew
    have hfront : ∀ x ∈ (if rs ≠ "succeeded" then [Event.respond (Response.json 400)]
        else []) ++ [Event.processorGet orderID, Event.ledgerRead orderID none,
          Event.ledgerWrite orderID "succeeded" none], ¬ ∃ c, x = Event.finishPay c := by
      intro x hx
      rintro ⟨c, rfl⟩
      split_ifs at hx <;> simp at hx
    refine ⟨?_, ?_, ?_, ?_⟩
    · rw [hev, hrun.2]
      simp only [List.filterMap_append, List.filterMap_map]
      have hmap : ∀ cs : List Credit,
          List.filterMap (Event.credit ∘ Event.finishPay) cs = cs := by
        intro cs
        induction cs with
        | nil => rfl
        | cons c t ih => simp [Event.credit, ih]
      rw [hmap]
      split_ifs <;> simp [Event.credit]
    · intro pre c post h
      rw [hev] at h
      exact mem_before_split (fun x => ∃ c, x = Event.finishPay c) (Event.finishPay c)
        ⟨c, rfl⟩ _ pre post _ hfront h.symm _ (by simp)
    · intro _
      rw [hrun.1, huf]
      simp [UpdateOrderStatus]
    · intro h
      rw [huf] at h
      simp [UpdateOrderStatus] at h

/-- C11, instance. The crediting run on the recorded order `pi_1`: the write of
`succeeded` is the action just before the credit. -/
theorem confirm_write_before_credit_witness :
    successPageHandlerEvents (answering (intent "succeeded" "international")) [orderCreated]
        "pi_1" "succeeded" =
      [Event.processorGet "pi_1", Event.ledgerRead "pi_1" none,
        Event.ledgerWrite "pi_1" "succeeded" none] ++
      Event.finishPay { email := "a@b.com", amount := 100000, sitetype := 1 } ::
        [Event.respond (Response.html 200 "a@b.com" "international")] ∧
    Event.ledgerWrite "pi_1" "succeeded" none ∈
      [Event.processorGet "pi_1", Event.ledgerRead "pi_1" none,
        Event.ledgerWrite "pi_1" "succeeded" none] :=
  ⟨by decide,
    (confirm_write_before_credit (answering (intent "succeeded" "international"))
      [orderCreated] "pi_1" "succeeded").2.1
      [Event.processorGet "pi_1", Event.ledgerRead "pi_1" none,
        Event.ledgerWrite "pi_1" "succeeded" none]
      { email := "a@b.com", amount := 100000, sitetype := 1 }
      [Event.respond (Response.html 200 "a@b.com" "international")] (by decide)⟩

/-! ## C12: resolving the same email twice -/

theorem findCustomer_append_new (store : Customers) (id email : String)
    (h : findCustomer store email = none) :
    findCustomer (store ++ [{ id := id, mail := email }]) email = some id := by
  induction store with
  | nil => simp [findCustomer]
  | cons c t ih =>
    by_cases hc : c.mail = email
    · simp [findCustomer, hc] at h
    · simp only [findCustomer, if_neg hc] at h
      simp only [List.cons_append, findCustomer, if_neg hc]
      exact ih h

/-- A successful run of `GetCustomerId` returns the ID stored for the email in the
table it leaves. -/
theorem GetCustomerId_stored (env : CustomerEnv) (store : Customers) (email : String)
    (h : (GetCustomerId env store email).err = none) :
    findCustomer (GetCustomerId env store email).store email =
      some (GetCustomerId env store email).id := by
  unfold GetCustomerId at h ⊢
  cases hq : env.queryFault with
  | true => simp [hq] at h
  | false =>
    simp only [hq, Bool.false_eq_true, if_false] at h ⊢
    cases hf : findCustomer store email with
    | some id => simp [hf]
    | none =>
      simp only [hf] at h ⊢
      cases hc : env.create email with
      | none => simp [hc] at h
      | some newID =>
        simp only [hc] at h ⊢
        unfold insertCustomer at h ⊢
        split_ifs at h ⊢ with h1 h2
        exact findCustomer_append_new store newID email hf

/-- A run of `GetCustomerId` that finds the email stored returns the stored ID and
makes no call. -/
theorem GetCustomerId_hit (env : CustomerEnv) (store : Customers) (email id : String)
    (hq : env.queryFault = false) (hf : findCustomer store email = some id) :
    GetCustomerId env store email = { store := store, id := id, err := none, calls := [] } := by
  simp [GetCustomerId, hq, hf]

/-- One run of `GetCustomerId` creates at most one remote customer, executes at most one
insert and adds at most one row. -/
theorem GetCustomerId_calls (env : CustomerEnv) (store : Customers) (email : String) :
    (GetCustomerId env store email).calls.countP CustomerCall.isCreate ≤ 1 ∧
    (GetCustomerId env store email).calls.countP CustomerCall.isInsert ≤ 1 ∧
    (GetCustomerId env store email).store.length ≤ store.length + 1 := by
  unfold GetCustomerId
  cases env.queryFault with
  | true => simp
  | false =>
    simp only [Bool.false_eq_true, if_false]
    cases findCustomer store email with
    | some id => simp
    | none =>
      simp only []
      cases env.create email with
      | none => simp [CustomerCall.isCreate, CustomerCall.isInsert]
      | some newID =>
        simp only [insertCustomer]
        split_ifs <;> simp [CustomerCall.isCreate, CustomerCall.isInsert]

/-- C12. Two sequential successful calls of `GetCustomerId(email)` return the same
customer ID; the second call is answered from the stored mapping, with no remote
creation and no insert, so that both calls together make at most one remote customer
creation and at most one insert, and add at most one row to the customers store. -/
theorem GetCustomerId_twice (env1 env2 : CustomerEnv) (store : Customers) (email : String)
    (h1 : (GetCustomerId env1 store email).err = none)
    (h2 : (GetCustomerId env2 (GetCustomerId env1 store email).store email).err = none) :
    (GetCustomerId env2 (GetCustomerId env1 store email).store email).id =
      (GetCustomerId env1 store email).id ∧
    findCustomer (GetCustomerId env1 store email).store email =
      some (GetCustomerId env1 store email).id ∧
    (GetCustomerId env2 (GetCustomerId env1 store email).store email).calls = [] ∧
    (GetCustomerId env2 (GetCustomerId env1 store email).store email).store =
      (GetCustomerId env1 store email).store ∧
    ((GetCustomerId env1 store email).calls ++
      (GetCustomerId env2 (GetCustomerId env1 store email).store email).calls).countP
        CustomerCall.isInsert ≤ 1 ∧
    ((GetCustomerId env1 store email).calls ++
      (GetCustomerId env2 (GetCustomerId env1 store email).store email).calls).countP
        CustomerCall.isCreate ≤ 1 ∧
    (GetCustomerId env2 (GetCustomerId env1 store email).store email).store.length ≤
      store.length + 1 := by
  have hstored := GetCustomerId_stored env1 store email h1
  have hq2 : env2.queryFault = false := by
    cases hq : env2.queryFault with
    | false => rfl
    | true => simp [GetCustomerId, hq] at h2
  have hsecond := GetCustomerId_hit env2 _ email _ hq2 hstored
  have hcalls := GetCustomerId_calls env1 store email
  rw [hsecond]
  refine ⟨rfl, hstored, rfl, rfl, ?_, ?_, hcalls.2.2⟩
  · simpa using hcalls.2.1
  · simpa using hcalls.1

/-- C12, instance. An unknown email resolved twice: the first call creates `cus_1` and
stores it, the second returns `cus_1` without any call. -/
theorem GetCustomerId_twice_witness :
    (GetCustomerId creating [] "a@b.com").err = none ∧
    (GetCustomerId creating (GetCustomerId creating [] "a@b.com").store "a@b.com").err =
      none ∧
    (GetCustomerId creating (GetCustomerId creating [] "a@b.com").store "a@b.com").id =
      (GetCustomerId creating [] "a@b.com").id ∧
    (GetCustomerId creating (GetCustomerId creating [] "a@b.com").store "a@b.com").calls =
      [] :=
  ⟨by decide, by decide,
    (GetCustomerId_twice creating creating [] "a@b.com" (by decide) (by decide)).1,
    (GetCustomerId_twice creating creating [] "a@b.com" (by decide) (by decide)).2.2.1⟩

/-! ## C13: the sweeper treats each order on its own -/

/-- Status of an order after the loop of the sweeper: the status decided for that
order if it is in the snapshot and its own write worked, its old status otherwise. -/
theorem statusOf_sweep_loop (env : SweepEnv) (ids : List String) (l : Ledger)
    (c : List StripeCall) (id : String) :
    statusOf (ids.foldl (sweepOrder env) (l, c)).1 id =
      (statusOf l id).map (fun s =>
        if id ∈ ids ∧ env.writeFault id = false then (sweepDecision env id).1 else s) := by
  rw [foldl_sweepOrder_ledger]
  induction l with
  | nil => rfl
  | cons o t ih =>
    simp only [List.map_cons, statusOf]
    by_cases ho : o.OrderID = id
    · subst ho
      by_cases hc : o.OrderID ∈ ids ∧ env.writeFault o.OrderID = false
      · simp [hc]
      · simp [hc]
    · have hid : (if o.OrderID ∈ ids ∧ env.writeFault o.OrderID = false then
          { o with Status := (sweepDecision env o.OrderID).1 } else o).OrderID = o.OrderID := by
        split_ifs <;> rfl
      rw [hid, if_neg ho, if_neg ho]
      exact ih

/-- The status decided for an order depends only on the processor's answers for that
order. -/
theorem sweepDecision_congr (env env2 : SweepEnv) (id : String)
    (hg : env2.get id = env.get id) (hc : env2.cancelFails id = env.cancelFails id) :
    sweepDecision env2 id = sweepDecision env id := by
  simp [sweepDecision, hg, hc]

/-- C13. Failures of the sweep are per order.  For every snapshot, every order in it is
processed (its remote state is queried); the final status of each order of the
snapshot is the one obtained by sweeping that order alone, and it is the same under
any other behaviour of the outside world that agrees on the remote answers and the
write result for that order, whatever fails for the other orders; and sweeping a list
of orders is sweeping its orders in turn. -/
theorem sweep_per_order (env : SweepEnv) (ids : List String) (l : Ledger)
    (c : List StripeCall) :
    (∀ id ∈ ids, StripeCall.get id ∈ (ids.foldl (sweepOrder env) (l, c)).2) ∧
    (∀ id ∈ ids, statusOf (ids.foldl (sweepOrder env) (l, c)).1 id =
      statusOf (sweepOrder env (l, []) id).1 id) ∧
    (∀ env2 id, env2.get id = env.get id → env2.cancelFails id = env.cancelFails id →
      env2.writeFault id = env.writeFault id →
      statusOf (ids.foldl (sweepOrder env2) (l, c)).1 id =
        statusOf (ids.foldl (sweepOrder env) (l, c)).1 id) ∧
    (∀ (id : String) (rest : List String) (st : Ledger × List StripeCall),
      (id :: rest).foldl (sweepOrder env) st =
        rest.foldl (sweepOrder env) (sweepOrder env st id)) ∧
    (∀ (front back : List String) (st : Ledger × List StripeCall),
      (front ++ back).foldl (sweepOrder env) st =
        back.foldl (sweepOrder env) (front.foldl (sweepOrder env) st)) := by
  refine ⟨?_, ?_, ?_, fun _ _ _ => rfl, fun front back st => List.foldl_append _ _ _ _⟩
  · intro id hid
    rw [foldl_sweepOrder_calls]
    apply List.mem_append_right
    rw [List.mem_flatMap]
    exact ⟨id, hid, sweepDecision_get_mem env id⟩
  · intro id hid
    have hone : sweepOrder env (l, []) id = [id].foldl (sweepOrder env) (l, []) := rfl
    rw [hone, statusOf_sweep_loop, statusOf_sweep_loop]
    simp [hid]
  · intro env2 id hg hc hw
    rw [statusOf_sweep_loop, statusOf_sweep_loop, sweepDecision_congr env env2 id hg hc, hw]

/-- C13, instance. The snapshot holds `pi_1` and `pi_2`; for `pi_1` the remote query
and the status write both fail, and `pi_2` is still queried, cancelled and marked
`canceled`. -/
theorem sweep_per_order_witness :
    "pi_2" ∈ ["pi_1", "pi_2"] ∧
    StripeCall.get "pi_2" ∈
      (["pi_1", "pi_2"].foldl (sweepOrder failingFirst) ([orderCreated, orderSecond], [])).2 ∧
    statusOf (["pi_1", "pi_2"].foldl (sweepOrder failingFirst)
      ([orderCreated, orderSecond], [])).1 "pi_2" = some "canceled" := by
  have h := sweep_per_order failingFirst ["pi_1", "pi_2"] [orderCreated, orderSecond] []
  refine ⟨by decide, h.1 "pi_2" (by decide), ?_⟩
  rw [h.2.1 "pi_2" (by decide)]
  decide

/-! ## C14: terminal orders are left alone by the sweeper -/

/-- Under the `UNIQUE` constraint a row is determined by its `order_id`. -/
theorem unique_row (l : Ledger) (hu : uniqueOrderIDs l) (o q : Order) (ho : o ∈ l)
    (hq : q ∈ l) (h : q.OrderID = o.OrderID) : q = o :=
  List.inj_on_of_nodup_map hu hq ho h

/-- Under the `UNIQUE` constraint the status found for the `order_id` of a row is the
status of that row. -/
theorem statusOf_of_mem (l : Ledger) (hu : uniqueOrderIDs l) (o : Order) (ho : o ∈ l) :
    statusOf l o.OrderID = some o.Status := by
  induction l with
  | nil => cases ho
  | cons p t ih =>
    by_cases hp : p.OrderID = o.OrderID
    · have := unique_row (p :: t) hu o p ho (List.mem_cons_self p t) hp
      simp [statusOf, this]
    · have hot : o ∈ t := by
        rcases List.mem_cons.1 ho with h | h
        · exact absurd (by rw [h]) hp
        · exact h
      have hut : uniqueOrderIDs t := by
        have := hu
        simp only [uniqueOrderIDs, List.map_cons, List.nodup_cons] at this
        exact this.2
      simp only [statusOf, if_neg hp]
      exact ih hut hot

/-- Every processor request of a run of the sweeper belongs to an order of the
snapshot. -/
theorem sweep_calls_from_snapshot (env : SweepEnv) (now : Nat) (l : Ledger)
    (call : StripeCall) (h : call ∈ (DeleteExpiredOrder env now l).calls) :
    ∃ id ∈ listExpired l now, call ∈ (sweepDecision env id).2 := by
  cases hq : env.queryFault with
  | true => simp [DeleteExpiredOrder, hq] at h
  | false =>
    cases hr : env.rowsFault with
    | true => simp [DeleteExpiredOrder, hq, hr] at h
    | false =>
      obtain ⟨id, hid, hcall⟩ := (sweep_calls_mem env now l call hq hr).1 h
      exact ⟨id, (List.mem_filter.1 hid).1, hcall⟩

/-- The `UNIQUE` constraint holds for the empty table and is kept by every operation on
the ledger. -/
theorem uniqueOrderIDs_applyOp (l : Ledger) (op : Op) (hu : uniqueOrderIDs l) :
    uniqueOrderIDs [] ∧ uniqueOrderIDs (applyOp l op) := by
  refine ⟨List.nodup_nil, ?_⟩
  cases op with
  | record fault now id status expiresAt =>
    simp only [applyOp, RecordOrder]
    split_ifs with hf hdup
    · exact hu
    · exact hu
    · simp only [uniqueOrderIDs, List.map_append, List.map_cons, List.map_nil]
      apply List.Nodup.append hu (List.nodup_singleton _)
      intro x hx hx2
      simp only [List.mem_singleton] at hx2
      subst hx2
      apply hdup
      rw [hasOrder_iff]
      obtain ⟨o, ho, hoid⟩ := List.mem_map.1 hx
      exact ⟨o, ho, hoid⟩
  | confirm env id rs =>
    simp only [applyOp]
    rcases confirm_ledger env l id rs with h2 | h2
    · rw [h2]; exact hu
    · rw [h2]
      simp only [uniqueOrderIDs, setStatus_orderID]
      exact hu
  | sweep env now =>
    simp only [applyOp]
    rcases DeleteExpiredOrder_ledger env now l with h2 | h2
    · rw [h2]; exact hu
    · rw [h2]
      simp only [uniqueOrderIDs, List.map_map]
      have : (Order.OrderID ∘ fun o =>
          if o.OrderID ∈ (listExpired l now).filter (fun id => !env.scanFault id) ∧
              env.writeFault o.OrderID = false then
            { o with Status := (sweepDecision env o.OrderID).1 }
          else o) = Order.OrderID := by
        funext o
        simp only [Function.comp]
        split_ifs <;> rfl
      rw [this]
      exact hu

/-- C14. In a ledger that satisfies its `UNIQUE` constraint, one run of
`DeleteExpiredOrder` leaves every order whose status is not `created` as it is (the
row and its status are unchanged) and makes no remote query and no cancellation
request for it, whatever the processor and the database answer. -/
theorem sweep_terminal_untouched (env : SweepEnv) (now : Nat) (l : Ledger) (o : Order)
    (hu : uniqueOrderIDs l) (ho : o ∈ l) (hs : o.Status ≠ "created") :
    statusOf (DeleteExpiredOrder env now l).ledger o.OrderID = some o.Status ∧
    o ∈ (DeleteExpiredOrder env now l).ledger ∧
    (∀ call ∈ (DeleteExpiredOrder env now l).calls,
      call ≠ StripeCall.get o.OrderID ∧ ∀ reason, call ≠ StripeCall.cancel o.OrderID reason) := by
  have hnot : o.OrderID ∉ listExpired l now := by
    intro hmem
    obtain ⟨q, hq, hqid, hqc, _⟩ := (mem_listExpired l now o.OrderID).1 hmem
    have := unique_row l hu o q ho hq hqid
    rw [this] at hqc
    exact hs hqc
  have hnot2 : o.OrderID ∉ (listExpired l now).filter (fun id => !env.scanFault id) :=
    fun h => hnot (List.mem_filter.1 h).1
  refine ⟨?_, ?_, ?_⟩
  · rcases DeleteExpiredOrder_ledger env now l with h2 | h2
    · rw [h2]; exact statusOf_of_mem l hu o ho
    · rw [h2, statusOf_map_frame]
      · exact statusOf_of_mem l hu o ho
      · intro p _
        split_ifs <;> rfl
      · intro p _ hp
        rw [hp]
        simp [hnot2]
  · rcases DeleteExpiredOrder_ledger env now l with h2 | h2
    · rw [h2]; exact ho
    · rw [h2, List.mem_map]
      exact ⟨o, ho, by simp [hnot2]⟩
  · intro call hcall
    obtain ⟨id, hid, hdec⟩ := sweep_calls_from_snapshot env now l call hcall
    have hne : id ≠ o.OrderID := fun h => hnot (h ▸ hid)
    rcases sweepDecision_calls_id env id call hdec with h | h
    · rw [h]
      exact ⟨fun e => hne (StripeCall.get.inj e), fun reason e => by cases e⟩
    · rw [h]
      exact ⟨fun e => (by cases e), fun reason e => hne (StripeCall.cancel.inj e).1⟩

/-- C14, instance. The ledger holds `pi_1`, already `succeeded` and past its expiry, and
the expired `created` order `pi_2`; the sweep does not touch `pi_1`. -/
theorem sweep_terminal_untouched_witness :
    uniqueOrderIDs [orderSucceeded, orderSecond] ∧
    orderSucceeded ∈ [orderSucceeded, orderSecond] ∧ orderSucceeded.Status ≠ "created" ∧
    statusOf (DeleteExpiredOrder (sweeping none false false) 2000
      [orderSucceeded, orderSecond]).ledger orderSucceeded.OrderID = some "succeeded" :=
  ⟨by decide, by decide, by decide,
    (sweep_terminal_untouched (sweeping none false false) 2000 [orderSucceeded, orderSecond]
      orderSucceeded (by decide) (by decide) (by decide)).1⟩

/-! ## C15: the balance update built by `AddBalance` -/

/-- Reduction to `int64` leaves a value of the `int64` range as it is. -/
theorem wrapInt64_of_range (x : Int) (h1 : -(2 ^ 63) ≤ x) (h2 : x ≤ 2 ^ 63 - 1) :
    wrapInt64 x = x := by
  unfold wrapInt64
  norm_num at h1 h2 ⊢
  omega

/-- Reduction to `int64` lands in the `int64` range. -/
theorem wrapInt64_range (x : Int) :
    -(2 ^ 63) ≤ wrapInt64 x ∧ wrapInt64 x ≤ 2 ^ 63 - 1 := by
  unfold wrapInt64
  norm_num
  omega

/-- C15, counterexample. The user's balance is `2^63 - 1024` and 100000 is added: the
credit of the update is `-9223372036854676832`, not the sum `9223372036854874784`. -/
theorem AddBalance_credit_wraps :
    -(2 ^ 63 : Int) ≤ userNearMax.Credit ∧ userNearMax.Credit ≤ 2 ^ 63 - 1 ∧
    (AddBalance userNearMax 100000 1).updateData.credit = -9223372036854676832 ∧
    (AddBalance userNearMax 100000 1).updateData.credit ≠ userNearMax.Credit + 100000 := by
  decide

/-- C15, amended. The balance update built by `AddBalance` sets the new credit to the
user's current credit plus the amount in `int64` arithmetic: exactly the sum whenever
the sum lies in the `int64` range, the sum reduced modulo `2^64` otherwise.  It carries
the user's name, email, profile image and role over unchanged. -/
theorem AddBalance_update (userInfo : UserInfo) (amount sitetype : Int) :
    (AddBalance userInfo amount sitetype).updateData.credit =
      wrapInt64 (userInfo.Credit + amount) ∧
    (-(2 ^ 63) ≤ userInfo.Credit + amount → userInfo.Credit + amount ≤ 2 ^ 63 - 1 →
      (AddBalance userInfo amount sitetype).updateData.credit = userInfo.Credit + amount) ∧
    (AddBalance userInfo amount sitetype).updateData.name = userInfo.Name ∧
    (AddBalance userInfo amount sitetype).updateData.email = userInfo.Email ∧
    (AddBalance userInfo amount sitetype).updateData.profile_image_url =
      userInfo.ProfileImageURL ∧
    (AddBalance userInfo amount sitetype).updateData.role = userInfo.Role :=
  ⟨rfl, fun h1 h2 => wrapInt64_of_range _ h1 h2, rfl, rfl, rfl, rfl⟩

/-- C15, instance. Adding 100000 to a balance of 500 gives 100500. -/
theorem AddBalance_update_witness :
    -(2 ^ 63 : Int) ≤ userAnn.Credit + 100000 ∧ userAnn.Credit + 100000 ≤ 2 ^ 63 - 1 ∧
    (AddBalance userAnn 100000 2).updateData.credit = userAnn.Credit + 100000 :=
  ⟨by decide, by decide, (AddBalance_update userAnn 100000 2).2.1 (by decide) (by decide)⟩

/-! ## Decimal round trip: `Atoi (Itoa n) = n` -/

theorem digitVal_digitChar (d : Nat) (h : d < 10) : digitVal (digitChar d) = some d := by
  interval_cases d <;> decide

theorem digitChar_ne_sign (d : Nat) (h : d < 10) :
    digitChar d ≠ '+' ∧ digitChar d ≠ '-' := by
  interval_cases d <;> decide

theorem decimalDigits_append (fuel u : Nat) (acc : List Char) :
    decimalDigits fuel u acc = decimalDigits fuel u [] ++ acc := by
  induction fuel generalizing u acc with
  | zero => rfl
  | succ k ih =>
    simp only [decimalDigits]
    split_ifs
    · rfl
    · rw [ih (u / 10) (digitChar (u % 10) :: acc), ih (u / 10) [digitChar (u % 10)]]
      simp

/-- The digits written start with a digit. -/
theorem decimalDigits_head (fuel u : Nat) :
    ∃ d, d < 10 ∧ ∃ t, decimalDigits (fuel + 1) u [] = digitChar d :: t := by
  induction fuel generalizing u with
  | zero =>
    simp only [decimalDigits]
    split_ifs with h
    · exact ⟨u, h, [], rfl⟩
    · exact ⟨u % 10, Nat.mod_lt _ (by norm_num), [], rfl⟩
  | succ k ih =>
    rw [decimalDigits]
    split_ifs with h
    · exact ⟨u, h, [], rfl⟩
    · obtain ⟨d, hd, t, ht⟩ := ih (u / 10)
      rw [decimalDigits_append, ht]
      exact ⟨d, hd, t ++ [digitChar (u % 10)], rfl⟩

/-- Reading one more digit: the value read so far is multiplied by 10 and the digit
added, unless that leaves the range of `uint64`. -/
theorem parseUintLoop_append_digit (ds : List Char) (d a : Nat) (h : d < 10) :
    parseUintLoop (ds ++ [digitChar d]) a =
      match parseUintLoop ds a with
      | Except.ok m =>
        if m ≥ (2 ^ 64 - 1) / 10 + 1 then Except.error NumError.outOfRange
        else if m * 10 + d > 2 ^ 64 - 1 then Except.error NumError.outOfRange
        else Except.ok (m * 10 + d)
      | Except.error e => Except.error e := by
  induction ds generalizing a with
  | nil =>
    simp only [List.nil_append, parseUintLoop, digitVal_digitChar d h]
  | cons c t ih =>
    simp only [List.cons_append, parseUintLoop]
    cases digitVal c with
    | none => rfl
    | some e =>
      simp only []
      split_ifs
      · rfl
      · rfl
      · exact ih _

/-- Reading back the digits written for a value of the `uint64` range gives the
value. -/
theorem parseUintLoop_decimalDigits (fuel u : Nat) (hf : u < 10 ^ fuel) (hu : u < 2 ^ 64) :
    parseUintLoop (decimalDigits fuel u []) 0 = Except.ok u := by
  induction fuel generalizing u with
  | zero =>
    have : u = 0 := by simpa using hf
    subst this
    rfl
  | succ k ih =>
    rw [decimalDigits]
    split_ifs with h
    · simp only [parseUintLoop, digitVal_digitChar u h]
      norm_num at hu ⊢
      intro hx
      omega
    · have hk : u / 10 < 10 ^ k := by
        apply Nat.div_lt_of_lt_mul
        rw [pow_succ] at hf
        omega
      have hu2 : u / 10 < 2 ^ 64 := lt_of_le_of_lt (Nat.div_le_self u 10) hu
      rw [decimalDigits_append, parseUintLoop_append_digit _ _ _ (Nat.mod_lt _ (by norm_num)),
        ih (u / 10) hk hu2]
      norm_num at hu ⊢
      have h1 : ¬ 1844674407370955162 ≤ u / 10 := by omega
      have h2 : ¬ 18446744073709551615 < u / 10 * 10 + u % 10 := by omega
      simp only [h1, h2, if_false]
      congr 1
      omega

theorem Atoi_mk (c : Char) (cs : List Char) :
    Atoi (String.mk (c :: cs)) =
      if c = '+' then parseIntBody false cs
      else if c = '-' then parseIntBody true cs
      else parseIntBody false (c :: cs) := rfl

theorem parseIntBody_ok (neg : Bool) (ds : List Char) (un : Nat) (hne : ds ≠ [])
    (hp : parseUintLoop ds 0 = Except.ok un) :
    parseIntBody neg ds =
      if !neg && decide (un ≥ 2 ^ 63) then ((2 ^ 63 : Int) - 1, some NumError.outOfRange)
      else if neg && decide (un > 2 ^ 63) then (-(2 ^ 63 : Int), some NumError.outOfRange)
      else (if neg then -(un : Int) else (un : Int), none) := by
  unfold parseIntBody
  rw [if_neg hne, hp]

/-- The decimal round trip is lossless on the whole range of a 64-bit `int`. -/
theorem Atoi_Itoa (n : Int) (h1 : -(2 ^ 63) ≤ n) (h2 : n ≤ 2 ^ 63 - 1) :
    Atoi (Itoa n) = (n, none) := by
  unfold Itoa
  split_ifs with hneg
  · have hparse : parseUintLoop (decimalDigits 20 n.natAbs []) 0 = Except.ok n.natAbs := by
      apply parseUintLoop_decimalDigits
      · norm_num at h1 ⊢
        omega
      · norm_num at h1 ⊢
        omega
    obtain ⟨d, _, t, ht⟩ := decimalDigits_head 19 n.natAbs
    have hne : decimalDigits 20 n.natAbs [] ≠ [] := by
      rw [ht]
      simp
    have hle : ¬ n.natAbs > 2 ^ 63 := by
      norm_num at h1 ⊢
      omega
    have hminus : ¬ ('-' : Char) = '+' := by decide
    rw [Atoi_mk, if_neg hminus, if_pos rfl, parseIntBody_ok true _ _ hne hparse]
    simp only [Bool.not_true, Bool.false_and, Bool.true_and, decide_eq_true_eq, hle,
      if_false, if_true, Bool.false_eq_true]
    congr 1
    omega
  · have hparse : parseUintLoop (decimalDigits 20 n.toNat []) 0 = Except.ok n.toNat := by
      apply parseUintLoop_decimalDigits
      · norm_num at h2 ⊢
        omega
      · norm_num at h2 ⊢
        omega
    obtain ⟨d, hd, t, ht⟩ := decimalDigits_head 19 n.toNat
    have hsign := digitChar_ne_sign d hd
    have hlt : ¬ n.toNat ≥ 2 ^ 63 := by
      norm_num at h2 ⊢
      omega
    have hparse2 : parseUintLoop (digitChar d :: t) 0 = Except.ok n.toNat := by
      rw [← ht]
      exact hparse
    have h20 : decimalDigits 20 n.toNat [] = digitChar d :: t := ht
    rw [h20, Atoi_mk, if_neg hsign.1, if_neg hsign.2,
      parseIntBody_ok false _ _ (List.cons_ne_nil _ _) hparse2]
    simp only [Bool.not_false, Bool.true_and, decide_eq_true_eq, hlt, Bool.false_and,
      if_false, Bool.false_eq_true]
    congr 1
    omega

/-! ## C16: the points written to the metadata and credited -/

theorem findProduct_mem (p : Product) (h : p ∈ GetProducts) :
    findProduct p.ID = some p ∧ 0 < p.Points ∧ p.Points ≤ 1000000 := by
  simp only [GetProducts, List.mem_cons, List.mem_singleton, List.not_mem_nil, or_false] at h
  rcases h with h | h | h <;> subst h <;> decide

/-- C16, counterexample. Product 1 (100000 points) is ordered with quantity
`2^62 + 1`, which `Atoi` accepts.  `Points * quantity` wraps in `int`: the metadata
holds `100000`, the confirmation parses it back and credits 100000, not
`100000 * (2^62 + 1)`.  (The price `20 * quantity` wraps to 20 as well, so the intent
is an ordinary payment.) -/
theorem points_wrap_large_quantity :
    Atoi "4611686018427387905" = (4611686018427387905, none) ∧
    (createPaymentIntent shop 100 [] [] (orderForm "4611686018427387905" "20")).code = 200 ∧
    (createPaymentIntent shop 100 [] [] (orderForm "4611686018427387905" "20")).params.map
      (fun params => (params.baseAmount, mapIndex params.Metadata "amount")) =
      some (20, "100000") ∧
    (createPaymentIntent shop 100 [] [] (orderForm "4611686018427387905" "20")).params.map
      (fun params => (successPageHandler (answering (paidIntent params.Metadata))
        (createPaymentIntent shop 100 [] [] (orderForm "4611686018427387905" "20")).ledger
        "pi_9" "succeeded").credits) =
      some [{ email := "a@b.com", amount := 100000, sitetype := 2 }] ∧
    (100000 : Int) ≠ 100000 * 4611686018427387905 := by
  decide

/-- C16, amended. For every product of the catalog and every quantity accepted by
`createPaymentIntent`, the points written to the metadata are the decimal numeral of
`Points * quantity` in 64-bit `int` arithmetic, and the confirmation parses back
exactly that value (the round trip `Itoa`/`Atoi` is lossless).  It is the exact product,
hence positive, whenever the product does not exceed `2^63 - 1`, in particular for
every quantity up to 9223372036854; beyond that the product wraps.  The result depends
on the posted `productID`, `quantity`, `email` and `siteType` only: no client-supplied
price enters. -/
theorem createPaymentIntent_points (env : CreateEnv) (now : Nat) (l : Ledger)
    (customers : Customers) (form : String → String) (p : Product) (q : Int)
    (hp : Atoi (form "productID") = (p.ID, none)) (hmem : p ∈ GetProducts)
    (hq : Atoi (form "quantity") = (q, none)) (hq1 : 1 ≤ q)
    (hcust : (GetCustomerId env.customer customers (form "email")).err = none) :
    (∃ params, (createPaymentIntent env now l customers form).params = some params ∧
      mapIndex params.Metadata "amount" = Itoa (wrapInt64 (p.Points * q)) ∧
      ∀ pi : PaymentIntent, pi.Metadata = some params.Metadata →
        metaAmount pi = wrapInt64 (p.Points * q)) ∧
    (p.Points * q ≤ 2 ^ 63 - 1 →
      wrapInt64 (p.Points * q) = p.Points * q ∧ 0 < wrapInt64 (p.Points * q)) ∧
    (q ≤ 9223372036854 → p.Points * q ≤ 2 ^ 63 - 1) ∧
    (∀ form2 : String → String, form2 "productID" = form "productID" →
      form2 "quantity" = form "quantity" → form2 "email" = form "email" →
      form2 "siteType" = form "siteType" →
      createPaymentIntent env now l customers form2 =
        createPaymentIntent env now l customers form) := by
  obtain ⟨hfind, hpos, hmax⟩ := findProduct_mem p hmem
  have hprod : 0 < p.Points * q := Int.mul_pos hpos (by omega)
  refine ⟨?_, ?_, ?_, ?_⟩
  · have hamount : ∀ md : List (String × String),
        mapIndex md "amount" = Itoa (wrapInt64 (p.Points * q)) →
        ∀ pi : PaymentIntent, pi.Metadata = some md →
          metaAmount pi = wrapInt64 (p.Points * q) := by
      intro md hmd pi hpi
      have hr := wrapInt64_range (p.Points * q)
      simp only [metaAmount, hpi, hmd, Atoi_Itoa _ hr.1 hr.2]
    have hidx : mapIndex
        [("email", form "email"), ("sitetype", form "siteType"),
          ("amount", Itoa (wrapInt64 (p.Points * q))), ("productID", Itoa p.ID)] "amount" =
        Itoa (wrapInt64 (p.Points * q)) := by
      simp [mapIndex]
    have hq3 : ¬ (False ∨ q < 1) := by
      simp only [false_or, not_lt]
      exact hq1
    simp only [createPaymentIntent, hp, hq, hfind, hcust, ne_eq, not_true_eq_false, if_false]
    rw [if_neg hq3]
    split
    · exact ⟨_, rfl, hidx, hamount _ hidx⟩
    · split_ifs
      · exact ⟨_, rfl, hidx, hamount _ hidx⟩
      · exact ⟨_, rfl, hidx, hamount _ hidx⟩
  · intro hle
    have := wrapInt64_of_range (p.Points * q) (by omega) hle
    rw [this]
    exact ⟨rfl, hprod⟩
  · intro hle
    have h1 : p.Points * q ≤ 1000000 * q :=
      Int.mul_le_mul_of_nonneg_right hmax (by omega)
    norm_num
    omega
  · intro form2 h1 h2 h3 h4
    simp only [createPaymentIntent, h1, h2, h3, h4]

/-- C16, instance. Product 1 with quantity 3: the metadata holds `300000`, whatever the
posted `price` field says. -/
theorem createPaymentIntent_points_witness :
    Atoi (orderForm "3" "1" "productID") = (1, none) ∧
    Atoi (orderForm "3" "1" "quantity") = (3, none) ∧
    (createPaymentIntent shop 100 [] [] (orderForm "3" "1")).params.map
      (fun params => mapIndex params.Metadata "amount") = some "300000" ∧
    createPaymentIntent shop 100 [] [] (orderForm "3" "999") =
      createPaymentIntent shop 100 [] [] (orderForm "3" "1") :=
  ⟨by decide, by decide, by decide,
    (createPaymentIntent_points shop 100 [] [] (orderForm "3" "1")
      { ID := 1, Name := "100,000 积分", Price := 20, Points := 100000 } 3
      (by decide) (by decide) (by decide) (by decide) (by decide)).2.2.2
      (orderForm "3" "999") (by decide) (by decide) (by decide) (by decide)⟩

end BreathAIPay
